import Mathlib

/-!
# Form validation engine of `grpc-form/go-api` (`api.go`)

A shallow embedding of `ProxyServer.GetForm`, `ProxyServer.ValidateForm`,
`ProxyServer.SendForm`, `checkValidator`, the three `checkValidatorOn*Field`
functions, `getOption` and `hasStatus`.

Conventions of the embedding:

* Go `int64` values are `Int`; the code only compares them, so no wrap-around
  arithmetic is involved.  `len(s)` of a Go string is its byte length
  (`String.utf8ByteSize`).
* A pointer that may be `nil` is an `Option`; the generated getters
  (`GetTextField`, `GetActiveIf`, ...) are nil-safe and return the zero value.
* A run-time panic (nil dereference, index out of range, call of a nil
  function value) is a value of `Fault`; functions that can panic return
  `Except Fault _`.
* `regexp.MatchString` is a parameter `re : Regexp`, returning the pair
  `(ok, err != nil)`.
* Mutation through pointers is explicit state passing: the loop of
  `ValidateForm` threads the flag `out.Valid` and rebuilds `out.Fields`.
-/

namespace Api

/-! ## Data model (package `grpcform`) -/

/-- Modelled from the spec: the generated enum `grpcform.FieldStatus` (section 3,
"one of UNSPECIFIED, ACTIVE, REQUIRED, DISABLED, HIDDEN"). -/
inductive FieldStatus where
  | FIELD_STATUS_UNSPECIFIED
  | FIELD_STATUS_ACTIVE
  | FIELD_STATUS_REQUIRED
  | FIELD_STATUS_DISABLED
  | FIELD_STATUS_HIDDEN
  deriving DecidableEq, Repr

/-- Modelled from the spec: the generated enum `grpcform.ButtonStatus` (section 3,
"ACTIVE or inactive"). -/
inductive ButtonStatus where
  | BUTTON_INACTIVE
  | BUTTON_ACTIVE
  deriving DecidableEq, Repr

/-- Modelled from the spec: the generated message `grpcform.Validator`; the
fields are the getters used by `api.go`. -/
structure Validator where
  index : Int := 0
  textIsEqual : String := ""
  lengthSmallerThan : Int := 0
  lengthGreaterThan : Int := 0
  numberIsEqual : Int := 0
  numberSmallerThan : Int := 0
  numberGreaterThan : Int := 0
  matchRegexPattern : String := ""
  deriving DecidableEq, Repr

/-- Modelled from the spec: the generated message `grpcform.Option`. -/
structure OptionMsg where
  index : Int := 0
  value : String := ""
  deriving DecidableEq, Repr

/-- Modelled from the spec: the generated message `grpcform.TextField`. -/
structure TextField where
  value : String := ""
  min : Int := 0
  max : Int := 0
  regex : String := ""
  minError : String := ""
  maxError : String := ""
  regexError : String := ""
  deriving DecidableEq, Repr

/-- Modelled from the spec: the generated message `grpcform.NumericField`. -/
structure NumericField where
  value : Int := 0
  min : Int := 0
  max : Int := 0
  minError : String := ""
  maxError : String := ""
  deriving DecidableEq, Repr

/-- Modelled from the spec: the generated message `grpcform.SelectField`. -/
structure SelectField where
  index : Int := 0
  options : List OptionMsg := []
  error : String := ""
  deriving DecidableEq, Repr

/-- Modelled from the spec: the payload of a field, "exactly one of TextField,
SelectField, NumericField payloads - mutually exclusive variants". -/
inductive FieldKind where
  | text (t : TextField)
  | select (s : SelectField)
  | numeric (n : NumericField)
  deriving DecidableEq, Repr

/-- Modelled from the spec: the generated message `grpcform.Field`.  `kind` is
`none` when the field carries no payload; a condition block is `none` when the
pointer is nil and `some validators` otherwise. -/
structure Field where
  status : FieldStatus := FieldStatus.FIELD_STATUS_UNSPECIFIED
  error : String := ""
  kind : Option FieldKind := none
  activeIf : Option (List Validator) := none
  requiredIf : Option (List Validator) := none
  disabledIf : Option (List Validator) := none
  hiddenIf : Option (List Validator) := none
  deriving DecidableEq, Repr

/-- Modelled from the spec: the generated message `grpcform.Button`. -/
structure Button where
  status : ButtonStatus := ButtonStatus.BUTTON_INACTIVE
  deriving DecidableEq, Repr

/-- Modelled from the spec: the generated message `grpcform.Form`; the zero
value is `&grpcform.Form{}`. -/
structure Form where
  name : String := ""
  fields : List Field := []
  buttons : List Button := []
  valid : Bool := false
  deriving DecidableEq, Repr

/-- Modelled from the spec: the generated message `grpcform.SendFormResponse`,
of which `api.go` sets the member `Form`. -/
structure SendFormResponse where
  form : Option Form := none
  deriving DecidableEq, Repr

/-- A run-time panic of the Go program. -/
inductive Fault where
  | nilDereference
  | indexOutOfRange
  | nilFunctionCall
  deriving DecidableEq, Repr

/-- The function `regexp.MatchString pattern s`: the pair `(ok, err != nil)`. -/
abbrev Regexp := String → String → Bool × Bool

/-- The Go expression `int64(len(s))`. -/
def len (s : String) : Int := (s.utf8ByteSize : Int)

/-- The function `strconv.Itoa`. -/
def Itoa (v : Int) : String := toString v

/-! ### Generated nil-safe getters -/

def Field.GetTextField (f : Field) : Option TextField :=
  match f.kind with
  | some (FieldKind.text t) => some t
  | _ => none

def Field.GetSelectField (f : Field) : Option SelectField :=
  match f.kind with
  | some (FieldKind.select s) => some s
  | _ => none

def Field.GetNumericField (f : Field) : Option NumericField :=
  match f.kind with
  | some (FieldKind.numeric n) => some n
  | _ => none

/-- The getter `(*Option).GetValue`, applied to a possibly nil pointer. -/
def GetValue (o : Option OptionMsg) : String :=
  match o with
  | some x => x.value
  | none => ""

/-! ## Registry -/

/-- The Go type `ModelFunc`: a side-effect-free factory of the schema. -/
abbrev ModelFunc := Unit → Form

/-- The Go type `SendFunc`; the context argument carries no data used here. -/
abbrev SendFunc := Form → Option SendFormResponse × Option String

structure element where
  model : ModelFunc
  send : SendFunc

/-- The Go type `ProxyServer`, a `map[string]element`, as an association list
whose order is the iteration order of `range`. -/
abbrev ProxyServer := List (String × element)

def New : ProxyServer := []

/-- The method `ProxyServer.Add`: `s[model().GetName()] = element{model, send}`. -/
def Add (s : ProxyServer) (model : ModelFunc) (send : SendFunc) : ProxyServer :=
  ((model ()).name, { model := model, send := send }) ::
    s.filter (fun p => p.1 ≠ (model ()).name)

/-! ## `hasStatus`, `getOption` -/

def hasStatus (is : FieldStatus) : List FieldStatus → Bool
  | [] => false
  | s :: within => if s = is then true else hasStatus is within

def getOption (option : Int) : List OptionMsg → Option OptionMsg
  | [] => none
  | o :: options => if o.index = option then some o else getOption option options

/-! ## Condition evaluator -/

def checkValidatorOnTextField (re : Regexp) (textField : TextField)
    (validator : Validator) : Bool :=
  if validator.textIsEqual ≠ "" ∧ textField.value = validator.textIsEqual then true
  else if validator.lengthSmallerThan ≠ 0 ∧
      len textField.value < validator.lengthSmallerThan then true
  else if validator.lengthGreaterThan ≠ 0 ∧
      len textField.value > validator.lengthGreaterThan then true
  else if validator.matchRegexPattern ≠ "" ∧
      (re validator.matchRegexPattern textField.value).1 = true ∧
      (re validator.matchRegexPattern textField.value).2 = true then true
  else false

def checkValidatorOnNumericField (re : Regexp) (numericField : NumericField)
    (validator : Validator) : Bool :=
  if validator.numberIsEqual ≠ 0 ∧ numericField.value = validator.numberIsEqual then true
  else if validator.numberSmallerThan ≠ 0 ∧
      numericField.value < validator.numberSmallerThan then true
  else if validator.numberGreaterThan ≠ 0 ∧
      numericField.value > validator.numberGreaterThan then true
  else if validator.matchRegexPattern ≠ "" ∧
      (re validator.matchRegexPattern (Itoa numericField.value)).1 = true ∧
      (re validator.matchRegexPattern (Itoa numericField.value)).2 = true then true
  else false

def checkValidatorOnSelectField (re : Regexp) (selectField : SelectField)
    (validator : Validator) : Bool :=
  if validator.textIsEqual ≠ "" ∧
      (getOption selectField.index selectField.options).isSome = true then true
  else if validator.numberIsEqual ≠ 0 ∧ selectField.index = validator.numberIsEqual then true
  else if validator.numberSmallerThan ≠ 0 ∧
      selectField.index < validator.numberSmallerThan then true
  else if validator.numberGreaterThan ≠ 0 ∧
      selectField.index > validator.numberGreaterThan then true
  else if validator.matchRegexPattern ≠ "" ∧
      (re validator.matchRegexPattern
        (GetValue (getOption selectField.index selectField.options))).1 = true ∧
      (re validator.matchRegexPattern
        (GetValue (getOption selectField.index selectField.options))).2 = true then true
  else false

/-- The Go index expression `inFields[index]`, which panics out of range. -/
def indexField (inFields : List Field) (index : Int) : Except Fault Field :=
  if 0 ≤ index then
    match inFields[index.toNat]? with
    | some f => Except.ok f
    | none => Except.error Fault.indexOutOfRange
  else Except.error Fault.indexOutOfRange

/-- The body of the loop of `checkValidator` for one validator, given the
submitted field it references: does the validator match it? -/
def validatorHits (re : Regexp) (f : Field) (validator : Validator) : Bool :=
  if (match f.GetTextField with
      | some textField => checkValidatorOnTextField re textField validator
      | none => false) = true then true
  else if (match f.GetNumericField with
      | some numericField => checkValidatorOnNumericField re numericField validator
      | none => false) = true then true
  else if (match f.GetSelectField with
      | some selectField => checkValidatorOnSelectField re selectField validator
      | none => false) = true then true
  else false

/-- The function `checkValidator`: `outField.Status = status` and `break` at the
first validator that matches the submitted field it references. -/
def checkValidator (re : Regexp) (inFields : List Field) (outField : Field) :
    List Validator → FieldStatus → Except Fault Field
  | [], _ => Except.ok outField
  | validator :: validators, status =>
    match indexField inFields validator.index with
    | Except.error e => Except.error e
    | Except.ok f =>
      if validatorHits re f validator = true then
        Except.ok { outField with status := status }
      else checkValidator re inFields outField validators status

/-! ## `ValidateForm` -/

/-- One of the four `if xIf := outField.GetXIf(); xIf != nil` statements of lines
80-95: `checkValidator` on the block's validators when the block is present. -/
def conditionBlock (re : Regexp) (inFields : List Field)
    (block : Option (List Validator)) (status : FieldStatus) (outField : Field) :
    Except Fault Field :=
  match block with
  | some validators => checkValidator re inFields outField validators status
  | none => Except.ok outField

/-- Lines 80-95 of `api.go`: the four condition blocks in source order, each
evaluated on the field as the previous one left it. -/
def resolveStatus (re : Regexp) (inFields : List Field) (outField : Field) :
    Except Fault Field :=
  match conditionBlock re inFields outField.activeIf
      FieldStatus.FIELD_STATUS_ACTIVE outField with
  | Except.error e => Except.error e
  | Except.ok outField =>
    match conditionBlock re inFields outField.requiredIf
        FieldStatus.FIELD_STATUS_REQUIRED outField with
    | Except.error e => Except.error e
    | Except.ok outField =>
      match conditionBlock re inFields outField.disabledIf
          FieldStatus.FIELD_STATUS_DISABLED outField with
      | Except.error e => Except.error e
      | Except.ok outField =>
        conditionBlock re inFields outField.hiddenIf
          FieldStatus.FIELD_STATUS_HIDDEN outField

/-- The state of one iteration of the loop of `ValidateForm`: whether the
iteration has executed `continue`, the flag `out.Valid`, and `outField`. -/
structure Iter where
  continued : Bool
  valid : Bool
  outField : Field
  deriving DecidableEq, Repr

/-- Lines 96-123 of `api.go`: the text block. -/
def textBlock (re : Regexp) (inField : Field) (valid : Bool) (outField : Field) :
    Except Fault Iter :=
  match inField.GetTextField with
  | some inTextField =>
    if hasStatus outField.status
        [FieldStatus.FIELD_STATUS_ACTIVE, FieldStatus.FIELD_STATUS_REQUIRED] = true then
      match outField.GetTextField with
      | none => Except.error Fault.nilDereference
      | some t =>
        let outTextField : TextField := { t with value := inTextField.value }
        let outField : Field := { outField with kind := some (FieldKind.text outTextField) }
        if valid = false ∨
            outField.status = FieldStatus.FIELD_STATUS_UNSPECIFIED ∨
            (outField.status = FieldStatus.FIELD_STATUS_ACTIVE ∧
              outTextField.value = "") then
          Except.ok ⟨true, valid, outField⟩
        else if len outTextField.value < outTextField.min then
          Except.ok ⟨true, false, { outField with error := outTextField.minError }⟩
        else if len outTextField.value > outTextField.max then
          Except.ok ⟨true, false, { outField with error := outTextField.maxError }⟩
        else if (re outTextField.regex outTextField.value).1 = false ∨
            (re outTextField.regex outTextField.value).2 = true then
          Except.ok ⟨true, false, { outField with error := outTextField.regexError }⟩
        else Except.ok ⟨false, valid, outField⟩
    else Except.ok ⟨false, valid, outField⟩
  | none => Except.ok ⟨false, valid, outField⟩

/-- Lines 133-139 of `api.go`: the scan of the declared options. -/
def optionCheck (index : Int) : List OptionMsg → Bool → Bool
  | [], check => check
  | o :: options, check =>
    if o.index = index then optionCheck index options true
    else optionCheck index options check

/-- Lines 124-145 of `api.go`: the select block. -/
def selectBlock (inField : Field) (valid : Bool) (outField : Field) :
    Except Fault Iter :=
  match inField.GetSelectField with
  | some inSelectField =>
    if hasStatus outField.status
        [FieldStatus.FIELD_STATUS_ACTIVE, FieldStatus.FIELD_STATUS_REQUIRED] = true then
      match outField.GetSelectField with
      | none => Except.error Fault.nilDereference
      | some t =>
        let outSelectField : SelectField := { t with index := inSelectField.index }
        let outField : Field :=
          { outField with kind := some (FieldKind.select outSelectField) }
        if valid = false ∨
            (outField.status = FieldStatus.FIELD_STATUS_ACTIVE ∧
              outSelectField.index = 0) then
          Except.ok ⟨true, valid, outField⟩
        else if optionCheck outSelectField.index outSelectField.options false = false then
          Except.ok ⟨true, false, { outField with error := outSelectField.error }⟩
        else Except.ok ⟨false, valid, outField⟩
    else Except.ok ⟨false, valid, outField⟩
  | none => Except.ok ⟨false, valid, outField⟩

/-- Lines 146-166 of `api.go`: the numeric block. -/
def numericBlock (inField : Field) (valid : Bool) (outField : Field) :
    Except Fault Iter :=
  match inField.GetNumericField with
  | some inNumericField =>
    if hasStatus outField.status
        [FieldStatus.FIELD_STATUS_ACTIVE, FieldStatus.FIELD_STATUS_REQUIRED] = true then
      match outField.GetNumericField with
      | none => Except.error Fault.nilDereference
      | some t =>
        let outSlider : NumericField := { t with value := inNumericField.value }
        let outField : Field := { outField with kind := some (FieldKind.numeric outSlider) }
        if valid = false ∨
            (outField.status = FieldStatus.FIELD_STATUS_ACTIVE ∧ outSlider.value = 0) then
          Except.ok ⟨true, valid, outField⟩
        else if outSlider.value < outSlider.min then
          Except.ok ⟨true, false, { outField with error := outSlider.minError }⟩
        else if outSlider.value > outSlider.max then
          Except.ok ⟨true, false, { outField with error := outSlider.maxError }⟩
        else Except.ok ⟨false, valid, outField⟩
    else Except.ok ⟨false, valid, outField⟩
  | none => Except.ok ⟨false, valid, outField⟩

/-- Lines 96-166 of `api.go`: the three blocks in source order; a block that
executes `continue` ends the iteration. -/
def checkField (re : Regexp) (inField : Field) (valid : Bool) (outField : Field) :
    Except Fault (Bool × Field) :=
  match textBlock re inField valid outField with
  | Except.error e => Except.error e
  | Except.ok a =>
    if a.continued = true then Except.ok (a.valid, a.outField)
    else
      match selectBlock inField a.valid a.outField with
      | Except.error e => Except.error e
      | Except.ok b =>
        if b.continued = true then Except.ok (b.valid, b.outField)
        else
          match numericBlock inField b.valid b.outField with
          | Except.error e => Except.error e
          | Except.ok c => Except.ok (c.valid, c.outField)

/-- One iteration of the loop of `ValidateForm` (lines 79-166). -/
def loopBody (re : Regexp) (inFields : List Field) (inField : Field) (valid : Bool)
    (outField : Field) : Except Fault (Bool × Field) :=
  match resolveStatus re inFields outField with
  | Except.error e => Except.error e
  | Except.ok outField => checkField re inField valid outField

/-- The loop `for i, inField := range inFields` of `ValidateForm`, started at
some position: `ins` are the submitted fields still to visit and `outs` the
schema fields at the same positions.  Conditions always read `inFields`, the
whole submitted sequence. -/
def loop (re : Regexp) (inFields : List Field) :
    List Field → List Field → Bool → Except Fault (Bool × List Field)
  | [], outs, valid => Except.ok (valid, outs)
  | _ :: _, [], _ => Except.error Fault.indexOutOfRange
  | inField :: ins, outField :: outs, valid =>
    match loopBody re inFields inField valid outField with
    | Except.error e => Except.error e
    | Except.ok (valid, outField) =>
      match loop re inFields ins outs valid with
      | Except.error e => Except.error e
      | Except.ok (valid, outs) => Except.ok (valid, outField :: outs)

/-- The method `ProxyServer.GetForm`, on the requested name. -/
def GetForm : ProxyServer → String → Form
  | [], _ => {}
  | (_, e) :: s, name => if name = (e.model ()).name then e.model () else GetForm s name

/-- Lines 168-172 of `api.go`. -/
def activateButtons (buttons : List Button) : List Button :=
  buttons.map (fun b => { b with status := ButtonStatus.BUTTON_ACTIVE })

/-- The method `ProxyServer.ValidateForm`; `inp` is `none` for a nil pointer.
The returned error is always nil and is left out. -/
def ValidateForm (re : Regexp) (s : ProxyServer) (inp : Option Form) :
    Except Fault Form :=
  let out := GetForm s (match inp with | some f => f.name | none => "")
  match inp with
  | none => Except.ok {}
  | some f =>
    if out.fields.length ≠ f.fields.length then Except.ok {}
    else
      match loop re f.fields f.fields out.fields true with
      | Except.error e => Except.error e
      | Except.ok (valid, outFields) =>
        Except.ok
          { out with
            valid := valid
            fields := outFields
            buttons := if valid = true then activateButtons out.buttons else out.buttons }

/-! ## `SendForm` -/

/-- What a call of `SendForm` produces: the returned pair and the list of
invocations of send handlers, as (registry key, argument). -/
structure SendOutcome where
  res : Option SendFormResponse
  err : Option String
  calls : List (String × Form)

/-- The method `ProxyServer.SendForm`.  `ValidateForm` returns a nil error on
every path, so the test `err != nil` of line 181 is on the constant `false`. -/
def SendForm (re : Regexp) (s : ProxyServer) (inp : Option Form) :
    Except Fault SendOutcome :=
  match ValidateForm re s inp with
  | Except.error e => Except.error e
  | Except.ok out =>
    let err : Option String := none
    if err ≠ none then
      Except.ok { res := some { form := some out }, err := none, calls := [] }
    else
      match s.lookup out.name with
      | none => Except.error Fault.nilFunctionCall
      | some e =>
        Except.ok { res := (e.send out).1, err := (e.send out).2, calls := [(out.name, out)] }

/-! ## Vocabulary of the properties

The definitions below are not part of `api.go`; they name the notions the
properties are stated with. -/

/-- Which payload a field carries: 0 none, 1 text, 2 select, 3 numeric. -/
def kindTag (f : Field) : Nat :=
  match f.kind with
  | none => 0
  | some (FieldKind.text _) => 1
  | some (FieldKind.select _) => 2
  | some (FieldKind.numeric _) => 3

/-- The submitted value is not the zero value of its kind: a non-empty text, a
non-zero number, a non-zero chosen index. -/
def nonZero (inField : Field) : Prop :=
  match inField.kind with
  | some (FieldKind.text t) => t.value ≠ ""
  | some (FieldKind.select s) => s.index ≠ 0
  | some (FieldKind.numeric n) => n.value ≠ 0
  | none => False

instance (inField : Field) : Decidable (nonZero inField) := by
  unfold nonZero; split <;> infer_instance

/-- The status under which a submitted value is checked: REQUIRED, or ACTIVE
with a non-zero value. -/
def applicable (status : FieldStatus) (inField : Field) : Prop :=
  status = FieldStatus.FIELD_STATUS_REQUIRED ∨
    (status = FieldStatus.FIELD_STATUS_ACTIVE ∧ nonZero inField)

instance (status : FieldStatus) (inField : Field) :
    Decidable (applicable status inField) := by
  unfold applicable; infer_instance

/-- The error string the schema field `outField` declares for the first
constraint (min, then max, then regex; or the option lookup) that the value
submitted in `inField` violates; `none` when it violates none, or when the two
fields do not carry the same kind of payload. -/
def declaredError (re : Regexp) (outField inField : Field) : Option String :=
  match outField.kind, inField.kind with
  | some (FieldKind.text t), some (FieldKind.text ti) =>
    if len ti.value < t.min then some t.minError
    else if len ti.value > t.max then some t.maxError
    else if (re t.regex ti.value).1 = false ∨ (re t.regex ti.value).2 = true then
      some t.regexError
    else none
  | some (FieldKind.select t), some (FieldKind.select ti) =>
    if ∀ o ∈ t.options, o.index ≠ ti.index then some t.error else none
  | some (FieldKind.numeric t), some (FieldKind.numeric ti) =>
    if ti.value < t.min then some t.minError
    else if ti.value > t.max then some t.maxError
    else none
  | _, _ => none

/-- The schema field with the submitted value (text, number or chosen index)
written into its payload; unchanged when the kinds differ. -/
def copyValue (outField inField : Field) : Field :=
  match outField.kind, inField.kind with
  | some (FieldKind.text t), some (FieldKind.text ti) =>
    { outField with kind := some (FieldKind.text { t with value := ti.value }) }
  | some (FieldKind.select t), some (FieldKind.select ti) =>
    { outField with kind := some (FieldKind.select { t with index := ti.index }) }
  | some (FieldKind.numeric t), some (FieldKind.numeric ti) =>
    { outField with kind := some (FieldKind.numeric { t with value := ti.value }) }
  | _, _ => outField

/-- The value a field carries violates the constraint the same field declares:
text of byte length below min or above max or not matched by the regex, number
below min or above max, chosen index equal to no declared option's index. -/
def violates (re : Regexp) (f : Field) : Prop :=
  match f.kind with
  | some (FieldKind.text t) =>
    len t.value < t.min ∨ len t.value > t.max ∨
      (re t.regex t.value).1 = false ∨ (re t.regex t.value).2 = true
  | some (FieldKind.select s) => ∀ o ∈ s.options, o.index ≠ s.index
  | some (FieldKind.numeric n) => n.value < n.min ∨ n.value > n.max
  | none => False

instance (re : Regexp) (f : Field) : Decidable (violates re f) := by
  unfold violates; split <;> infer_instance

/-- The iteration of lines 96-166 in closed form: what `checkField` computes,
by status and by the kinds of the two fields (`checkField_eq`). -/
def checkFieldSummary (re : Regexp) (inField : Field) (valid : Bool) (outField : Field) :
    Except Fault (Bool × Field) :=
  if outField.status = FieldStatus.FIELD_STATUS_ACTIVE ∨
      outField.status = FieldStatus.FIELD_STATUS_REQUIRED then
    if kindTag inField = 0 then Except.ok (valid, outField)
    else if kindTag inField ≠ kindTag outField then Except.error Fault.nilDereference
    else if valid = false ∨ ¬ applicable outField.status inField then
      Except.ok (valid, copyValue outField inField)
    else
      match declaredError re outField inField with
      | some e => Except.ok (false, { copyValue outField inField with error := e })
      | none => Except.ok (valid, copyValue outField inField)
  else Except.ok (valid, outField)

/-- The error a field earns in a pass: the declared error of the first
constraint its submitted value violates, when its resolved status is applicable;
`none` when the field does not fail. -/
def failureError (re : Regexp) (inFields : List Field) (outField inField : Field) :
    Option String :=
  match resolveStatus re inFields outField with
  | Except.ok fr => if applicable fr.status inField then declaredError re fr inField else none
  | Except.error _ => none

/-- The validator's index is a position of the submitted field sequence. -/
def inRange (inFields : List Field) (validator : Validator) : Prop :=
  0 ≤ validator.index ∧ validator.index < (inFields.length : Int)

instance (inFields : List Field) (validator : Validator) :
    Decidable (inRange inFields validator) := by
  unfold inRange; infer_instance

/-- The validators of a condition block; none for an absent block. -/
def validatorsOf (block : Option (List Validator)) : List Validator :=
  match block with
  | some validators => validators
  | none => []

/-- Every validator of every condition block of the field is in range. -/
def blocksInRange (inFields : List Field) (outField : Field) : Prop :=
  ∀ validator,
    validator ∈ validatorsOf outField.activeIf ++ validatorsOf outField.requiredIf ++
      validatorsOf outField.disabledIf ++ validatorsOf outField.hiddenIf →
    inRange inFields validator

instance (inFields : List Field) (outField : Field) :
    Decidable (blocksInRange inFields outField) := by
  unfold blocksInRange; infer_instance

/-- The validator matches the submitted value of the field it references: the
test `checkValidator` makes on `inFields[validator.GetIndex()]`. -/
def validatorMatches (re : Regexp) (inFields : List Field) (validator : Validator) : Bool :=
  match indexField inFields validator.index with
  | Except.ok f => validatorHits re f validator
  | Except.error _ => false

/-- A condition block is satisfied: it is present and one of its validators
matches. -/
def blockSatisfied (re : Regexp) (inFields : List Field)
    (block : Option (List Validator)) : Bool :=
  match block with
  | some validators => validators.any (validatorMatches re inFields)
  | none => false

/-- The target status of the last satisfied block in the order activeIf,
requiredIf, disabledIf, hiddenIf; the declared status when none is satisfied. -/
def lastSatisfied (re : Regexp) (inFields : List Field) (outField : Field) : FieldStatus :=
  if blockSatisfied re inFields outField.hiddenIf = true then
    FieldStatus.FIELD_STATUS_HIDDEN
  else if blockSatisfied re inFields outField.disabledIf = true then
    FieldStatus.FIELD_STATUS_DISABLED
  else if blockSatisfied re inFields outField.requiredIf = true then
    FieldStatus.FIELD_STATUS_REQUIRED
  else if blockSatisfied re inFields outField.activeIf = true then
    FieldStatus.FIELD_STATUS_ACTIVE
  else outField.status

/-! ## Sample data

A small regex engine and the "signup" form of the scenarios, used to evaluate
the definitions on concrete inputs. -/

/-- A sample regex engine: the empty pattern matches every string, the pattern
`^[a-z]+$` matches the non-empty strings of lower-case letters, and any other
pattern is reported as an error. -/
def sampleRegexp : Regexp := fun pattern s =>
  if pattern = "" then (true, false)
  else if pattern = "^[a-z]+$" then (decide (s ≠ "") && s.data.all Char.isLower, false)
  else (false, true)

/-- The text field of the scenarios: REQUIRED, min 3, max 10, lower-case. -/
def signupText : Field :=
  { status := FieldStatus.FIELD_STATUS_REQUIRED
    kind := some (FieldKind.text
      { min := 3, max := 10, regex := "^[a-z]+$"
        minError := "too short", maxError := "too long", regexError := "lower case only" }) }

/-- The numeric field of the scenarios: ACTIVE, min 1, max 5, REQUIRED when
field 0 is longer than 3 bytes. -/
def signupAge : Field :=
  { status := FieldStatus.FIELD_STATUS_ACTIVE
    kind := some (FieldKind.numeric
      { min := 1, max := 5, minError := "too small", maxError := "too large" })
    requiredIf := some [{ index := 0, lengthGreaterThan := 3 }] }

/-- A select field whose option list is not in index order. -/
def signupPlan : Field :=
  { status := FieldStatus.FIELD_STATUS_ACTIVE
    kind := some (FieldKind.select
      { options := [{ index := 7, value := "gold" }, { index := 3, value := "basic" }]
        error := "no such plan" }) }

def signup : Form :=
  { name := "signup", fields := [signupText, signupAge, signupPlan], buttons := [{}] }

/-- A send handler that answers with the form it received. -/
def echoSend : SendFunc := fun f => (some { form := some f }, none)

def sampleServer : ProxyServer := Add New (fun _ => signup) echoSend

/-- A submission of the "signup" form. -/
def submit (text : String) (age plan : Int) : Form :=
  { name := "signup"
    fields :=
      [{ kind := some (FieldKind.text { value := text }) },
       { kind := some (FieldKind.numeric { value := age }) },
       { kind := some (FieldKind.select { index := plan }) }] }

/-- A submission of the "signup" form whose three fields carry no payload. -/
def submitBlank : Form := { name := "signup", fields := [{}, {}, {}] }

/-- What `ValidateForm` returns for `submitBlank`: the schema, marked valid. -/
def acceptedBlank : Form :=
  { signup with valid := true, buttons := [{ status := ButtonStatus.BUTTON_ACTIVE }] }

/-- What `ValidateForm` returns for the text "ab", the number 9 and no plan. -/
def rejectedShort : Form :=
  { name := "signup"
    fields :=
      [{ signupText with
          error := "too short"
          kind := some (FieldKind.text
            { value := "ab", min := 3, max := 10, regex := "^[a-z]+$"
              minError := "too short", maxError := "too long"
              regexError := "lower case only" }) },
       { signupAge with
          kind := some (FieldKind.numeric
            { value := 9, min := 1, max := 5
              minError := "too small", maxError := "too large" }) },
       signupPlan]
    buttons := [{}]
    valid := false }

/-- What `ValidateForm` returns for the text "abcd", the number 0 and no plan. -/
def rejectedAge : Form :=
  { name := "signup"
    fields :=
      [{ signupText with
          kind := some (FieldKind.text
            { value := "abcd", min := 3, max := 10, regex := "^[a-z]+$"
              minError := "too short", maxError := "too long"
              regexError := "lower case only" }) },
       { signupAge with
          status := FieldStatus.FIELD_STATUS_REQUIRED
          error := "too small" },
       signupPlan]
    buttons := [{}]
    valid := false }


/-- A submission under a name that is not registered, with no fields. -/
def submitUnknown : Form := { name := "unknown" }

/-- What `ValidateForm` returns for the text "abcd", the number 3 and plan 7. -/
def acceptedFull : Form :=
  { name := "signup"
    fields :=
      [{ signupText with
          kind := some (FieldKind.text
            { value := "abcd", min := 3, max := 10, regex := "^[a-z]+$"
              minError := "too short", maxError := "too long"
              regexError := "lower case only" }) },
       { signupAge with
          status := FieldStatus.FIELD_STATUS_REQUIRED
          kind := some (FieldKind.numeric
            { value := 3, min := 1, max := 5
              minError := "too small", maxError := "too large" }) },
       { signupPlan with
          kind := some (FieldKind.select
            { index := 7
              options := [{ index := 7, value := "gold" }, { index := 3, value := "basic" }]
              error := "no such plan" }) }]
    buttons := [{ status := ButtonStatus.BUTTON_ACTIVE }]
    valid := true }

/-- The "signup" schema with its button declared ACTIVE. -/
def signupEager : Form :=
  { signup with buttons := [{ status := ButtonStatus.BUTTON_ACTIVE }] }

def eagerServer : ProxyServer := Add New (fun _ => signupEager) echoSend

/-- What `ValidateForm` returns on `eagerServer` for the text "ab", the number 9
and no plan: the rejected form, its button still ACTIVE. -/
def rejectedEager : Form :=
  { rejectedShort with buttons := [{ status := ButtonStatus.BUTTON_ACTIVE }] }

/-- The text field of the scenarios, hidden when field 1 is greater than 5. -/
def signupSecret : Field :=
  { signupText with hiddenIf := some [{ index := 1, numberGreaterThan := 5 }] }

/-- A validator whose only set predicate can be its regex pattern: the text and
the five numeric predicates are empty / zero. -/
def regexOnly (validator : Validator) : Prop :=
  validator.textIsEqual = "" ∧ validator.lengthSmallerThan = 0 ∧
    validator.lengthGreaterThan = 0 ∧ validator.numberIsEqual = 0 ∧
    validator.numberSmallerThan = 0 ∧ validator.numberGreaterThan = 0

instance (validator : Validator) : Decidable (regexOnly validator) := by
  unfold regexOnly; infer_instance

/-- A text field the schema declares DISABLED, with the declared value "". -/
def lockedText : Field :=
  { status := FieldStatus.FIELD_STATUS_DISABLED
    kind := some (FieldKind.text { max := 10 }) }

/-- A numeric field, ACTIVE with min 1 and max 5, REQUIRED when field 0 is
shorter than 3 bytes. -/
def guardedAge : Field :=
  { status := FieldStatus.FIELD_STATUS_ACTIVE
    kind := some (FieldKind.numeric
      { min := 1, max := 5, minError := "too small", maxError := "too large" })
    requiredIf := some [{ index := 0, lengthSmallerThan := 3 }] }

def locked : Form :=
  { name := "locked", fields := [lockedText, guardedAge], buttons := [{}] }

def lockedServer : ProxyServer := Add New (fun _ => locked) echoSend

/-- The submission of the text "hello" and the number 0 to the "locked" form. -/
def submitLocked : Form :=
  { name := "locked"
    fields :=
      [{ kind := some (FieldKind.text { value := "hello" }) },
       { kind := some (FieldKind.numeric { value := 0 }) }] }

/-- What `ValidateForm` returns for `submitLocked`: the schema with its declared
values, valid, the button ACTIVE. -/
def acceptedLocked : Form :=
  { locked with valid := true, buttons := [{ status := ButtonStatus.BUTTON_ACTIVE }] }

/-- A submission of the "signup" form whose field 0 carries a number where the
schema declares a text. -/
def submitMismatch : Form :=
  { name := "signup"
    fields :=
      [{ kind := some (FieldKind.numeric { value := 1 }) },
       { kind := some (FieldKind.numeric { value := 0 }) },
       { kind := some (FieldKind.select { index := 0 }) }] }

/-- What of a field `ValidateForm` never writes: the field with its status, its
error and its value / chosen index blanked. -/
def skeleton (f : Field) : Field :=
  { f with
    status := FieldStatus.FIELD_STATUS_UNSPECIFIED
    error := ""
    kind :=
      match f.kind with
      | some (FieldKind.text t) => some (FieldKind.text { t with value := "" })
      | some (FieldKind.select s) => some (FieldKind.select { s with index := 0 })
      | some (FieldKind.numeric n) => some (FieldKind.numeric { n with value := 0 })
      | none => none }

/-- What `ValidateForm` reads of a submitted field: the kind of its payload with
the text value, the number, or the chosen index and the carried option list;
everything else is blanked. -/
def payloadOnly (f : Field) : Field :=
  { kind :=
      match f.kind with
      | some (FieldKind.text t) => some (FieldKind.text { value := t.value })
      | some (FieldKind.select s) =>
        some (FieldKind.select { index := s.index, options := s.options })
      | some (FieldKind.numeric n) => some (FieldKind.numeric { value := n.value })
      | none => none }

/-- A text field of max 10, HIDDEN when the select field 0 has its chosen index
among its options. -/
def planNote : Field :=
  { status := FieldStatus.FIELD_STATUS_ACTIVE
    kind := some (FieldKind.text { max := 10 })
    hiddenIf := some [{ index := 0, textIsEqual := "gold" }] }

def plans : Form :=
  { name := "plans", fields := [signupPlan, planNote], buttons := [{}] }

def plansServer : ProxyServer := Add New (fun _ => plans) echoSend

/-- A submission of "plans" choosing index 7, the select field carrying the
given option list. -/
def submitPlan (options : List OptionMsg) : Form :=
  { name := "plans"
    fields :=
      [{ kind := some (FieldKind.select { index := 7, options := options }) },
       { kind := some (FieldKind.text { value := "hi" }) }] }

/-- The submission of "ab", 9 and no plan, carrying statuses, errors, bounds,
error strings and condition blocks of its own. -/
def submitNoisy : Form :=
  { name := "signup"
    fields :=
      [{ status := FieldStatus.FIELD_STATUS_HIDDEN
         error := "ignored"
         kind := some (FieldKind.text { value := "ab", min := 100, minError := "mine" })
         hiddenIf := some [{ index := 0, lengthGreaterThan := 1 }] },
       { status := FieldStatus.FIELD_STATUS_DISABLED
         kind := some (FieldKind.numeric { value := 9, max := 99 }) },
       { kind := some (FieldKind.select { index := 0, error := "mine" }) }] }

/-- What `ValidateForm` returns for `submitPlan` with the option of index 7
carried: the note is HIDDEN and keeps its declared value. -/
def hiddenNote : Form :=
  { name := "plans"
    fields :=
      [{ signupPlan with
          kind := some (FieldKind.select
            { index := 7
              options := [{ index := 7, value := "gold" }, { index := 3, value := "basic" }]
              error := "no such plan" }) },
       { planNote with status := FieldStatus.FIELD_STATUS_HIDDEN }]
    buttons := [{ status := ButtonStatus.BUTTON_ACTIVE }]
    valid := true }

/-- What `ValidateForm` returns for `submitPlan` with no option carried: the
note stays ACTIVE and receives the submitted text. -/
def shownNote : Form :=
  { name := "plans"
    fields :=
      [{ signupPlan with
          kind := some (FieldKind.select
            { index := 7
              options := [{ index := 7, value := "gold" }, { index := 3, value := "basic" }]
              error := "no such plan" }) },
       { planNote with kind := some (FieldKind.text { value := "hi", max := 10 }) }]
    buttons := [{ status := ButtonStatus.BUTTON_ACTIVE }]
    valid := true }

/-- What `ValidateForm` returns for `acceptedLocked`, the form it returned for
`submitLocked`: the declared text "" is shorter than 3 bytes, the number becomes
REQUIRED and its value 0 is below min 1. -/
def rejectedLocked : Form :=
  { name := "locked"
    fields :=
      [lockedText,
       { guardedAge with
          status := FieldStatus.FIELD_STATUS_REQUIRED
          error := "too small" }]
    buttons := [{}]
    valid := false }

/-- A registry whose only schema is registered under the empty name. -/
def namelessServer : ProxyServer :=
  Add New (fun _ => { name := "", fields := [signupText] }) echoSend

/-! ## Lemmas on the field checks -/

theorem hasStatus_iff (st : FieldStatus) :
    hasStatus st [FieldStatus.FIELD_STATUS_ACTIVE, FieldStatus.FIELD_STATUS_REQUIRED] = true ↔
      st = FieldStatus.FIELD_STATUS_ACTIVE ∨ st = FieldStatus.FIELD_STATUS_REQUIRED := by
  cases st <;> simp [hasStatus]

theorem optionCheck_true (index : Int) (options : List OptionMsg) :
    optionCheck index options true = true := by
  induction options with
  | nil => rfl
  | cons o os ih => simp [optionCheck, ih]

theorem optionCheck_false (index : Int) (options : List OptionMsg) :
    optionCheck index options false = false ↔ ∀ o ∈ options, o.index ≠ index := by
  induction options with
  | nil => simp [optionCheck]
  | cons o os ih =>
    by_cases h : o.index = index
    · simp [optionCheck, h, optionCheck_true]
    · simp [optionCheck, h, ih]

theorem checkField_eq (re : Regexp) (inField : Field) (valid : Bool) (outField : Field) :
    checkField re inField valid outField = checkFieldSummary re inField valid outField := by
  obtain ⟨st, er, kind, a, r, d, hd⟩ := outField
  obtain ⟨ist, ier, ikind, ia, ir, id, ihd⟩ := inField
  rcases ikind with _ | (ti | ti | ti) <;> rcases kind with _ | (t | t | t) <;>
    cases st <;> cases valid <;>
    simp [checkField, textBlock, selectBlock, numericBlock, hasStatus, checkFieldSummary,
      kindTag, Field.GetTextField, Field.GetSelectField, Field.GetNumericField,
      applicable, nonZero, declaredError, copyValue, optionCheck_false] <;>
    (split_ifs <;> simp_all)

theorem copyValue_error (outField inField : Field) :
    (copyValue outField inField).error = outField.error := by
  unfold copyValue; split <;> rfl

theorem copyValue_status (outField inField : Field) :
    (copyValue outField inField).status = outField.status := by
  unfold copyValue; split <;> rfl

/-- Whatever `checkField` returns keeps the status of the field. -/
theorem checkField_status (re : Regexp) (inField outField fo : Field) (valid v : Bool)
    (h : checkField re inField valid outField = Except.ok (v, fo)) :
    fo.status = outField.status := by
  rw [checkField_eq] at h
  unfold checkFieldSummary at h
  split_ifs at h
  all_goals first
    | (split at h <;> simp at h <;> obtain ⟨-, rfl⟩ := h <;> simp [copyValue_status])
    | (simp at h; obtain ⟨-, rfl⟩ := h; simp [copyValue_status])

/-- Once `out.Valid` is false an iteration leaves it false and writes no error. -/
theorem checkField_invalid (re : Regexp) (inField outField fo : Field) (v : Bool)
    (h : checkField re inField false outField = Except.ok (v, fo)) :
    v = false ∧ fo.error = outField.error := by
  rw [checkField_eq] at h
  unfold checkFieldSummary at h
  split_ifs at h
  all_goals first
    | (simp at h; obtain ⟨rfl, rfl⟩ := h; simp [copyValue_error])
    | simp_all


/-! ## Lemmas on status resolution -/

theorem checkValidator_frame (re : Regexp) (inFields : List Field) (outField fr : Field)
    (validators : List Validator) (status : FieldStatus)
    (h : checkValidator re inFields outField validators status = Except.ok fr) :
    fr = { outField with status := fr.status } := by
  induction validators with
  | nil => simp [checkValidator] at h; subst h; rfl
  | cons validator validators ih =>
    unfold checkValidator at h
    split at h
    · simp at h
    · split_ifs at h
      · simp at h; subst h; rfl
      · exact ih h

theorem conditionBlock_frame (re : Regexp) (inFields : List Field) (outField fr : Field)
    (block : Option (List Validator)) (status : FieldStatus)
    (h : conditionBlock re inFields block status outField = Except.ok fr) :
    fr = { outField with status := fr.status } := by
  cases block with
  | none => simp [conditionBlock] at h; subst h; rfl
  | some validators => exact checkValidator_frame re inFields outField fr validators status h

/-- Status resolution changes nothing but the status. -/
theorem resolveStatus_frame (re : Regexp) (inFields : List Field) (outField fr : Field)
    (h : resolveStatus re inFields outField = Except.ok fr) :
    fr = { outField with status := fr.status } := by
  unfold resolveStatus at h
  split at h
  · simp at h
  · rename_i f1 h1
    split at h
    · simp at h
    · rename_i f2 h2
      split at h
      · simp at h
      · rename_i f3 h3
        have e1 := conditionBlock_frame _ _ _ _ _ _ h1
        have e2 := conditionBlock_frame _ _ _ _ _ _ h2
        have e3 := conditionBlock_frame _ _ _ _ _ _ h3
        have e4 := conditionBlock_frame _ _ _ _ _ _ h
        rw [e4, e3, e2, e1]

theorem resolveStatus_error (re : Regexp) (inFields : List Field) (outField fr : Field)
    (h : resolveStatus re inFields outField = Except.ok fr) : fr.error = outField.error := by
  rw [resolveStatus_frame re inFields outField fr h]


/-! ## Lemmas on the loop -/

theorem loopBody_invalid (re : Regexp) (inFields : List Field) (inField outField fo : Field)
    (v : Bool) (h : loopBody re inFields inField false outField = Except.ok (v, fo)) :
    v = false ∧ fo.error = outField.error := by
  unfold loopBody at h
  split at h
  · simp at h
  · rename_i fr hres
    have := checkField_invalid re inField fr fo v h
    rw [resolveStatus_error re inFields outField fr hres] at this
    exact this

theorem loopBody_fail (re : Regexp) (inFields : List Field) (inField outField fo : Field)
    (v : Bool) (e : String)
    (h : loopBody re inFields inField true outField = Except.ok (v, fo))
    (he : failureError re inFields outField inField = some e) :
    v = false ∧ fo.error = e := by
  unfold loopBody at h
  unfold failureError at he
  split at h
  · simp at h
  · rename_i fr hres
    rw [hres] at he
    simp only at he
    split_ifs at he with happ
    rw [checkField_eq] at h
    unfold checkFieldSummary at h
    have hst : fr.status = FieldStatus.FIELD_STATUS_ACTIVE ∨
        fr.status = FieldStatus.FIELD_STATUS_REQUIRED := by
      rcases happ with h1 | h1
      · exact Or.inr h1
      · exact Or.inl h1.1
    have hk : kindTag inField ≠ 0 := by
      intro h0
      unfold kindTag at h0
      unfold declaredError at he
      split at h0 <;> simp_all
    simp only [hst, if_true, hk, if_false, happ, not_true, or_false, he] at h
    split_ifs at h
    all_goals first
      | contradiction
      | (simp at h; obtain ⟨rfl, rfl⟩ := h; simp)

theorem loopBody_pass (re : Regexp) (inFields : List Field) (inField outField fo : Field)
    (v : Bool)
    (h : loopBody re inFields inField true outField = Except.ok (v, fo))
    (he : failureError re inFields outField inField = none) :
    v = true ∧ fo.error = outField.error := by
  unfold loopBody at h
  unfold failureError at he
  split at h
  · simp at h
  · rename_i fr hres
    rw [hres] at he
    simp only at he
    rw [checkField_eq] at h
    unfold checkFieldSummary at h
    rw [← resolveStatus_error re inFields outField fr hres]
    split_ifs at h <;> simp_all [copyValue_error] <;>
      (obtain ⟨-, rfl⟩ := h; simp [copyValue_error])


theorem loop_cons (re : Regexp) (inFields : List Field) (inField outField : Field)
    (ins outs res : List Field) (valid v : Bool)
    (h : loop re inFields (inField :: ins) (outField :: outs) valid = Except.ok (v, res)) :
    ∃ v1 fo rest, loopBody re inFields inField valid outField = Except.ok (v1, fo) ∧
      loop re inFields ins outs v1 = Except.ok (v, rest) ∧ res = fo :: rest := by
  unfold loop at h
  split at h
  · simp at h
  · rename_i v1 fo hb
    split at h
    · simp at h
    · rename_i v2 rest hl
      simp at h
      exact ⟨v1, fo, rest, hb, by rw [hl, h.1], h.2.symm⟩

/-- After a failure the flag stays false and no further error is written. -/
theorem loop_invalid (re : Regexp) (inFields : List Field) (ins : List Field) :
    ∀ (outs res : List Field) (v : Bool),
      loop re inFields ins outs false = Except.ok (v, res) →
      v = false ∧ ∀ (j : Nat) (fo fs : Field), res[j]? = some fo → outs[j]? = some fs →
        fo.error = fs.error := by
  induction ins with
  | nil =>
    intro outs res v h
    simp [loop] at h
    obtain ⟨rfl, rfl⟩ := h
    refine ⟨rfl, ?_⟩
    intro j fo fs h1 h2
    rw [h1] at h2
    simp at h2
    rw [h2]
  | cons inField ins ih =>
    intro outs res v h
    cases outs with
    | nil => simp [loop] at h
    | cons outField outs =>
      obtain ⟨v1, fo, rest, hb, hl, rfl⟩ := loop_cons _ _ _ _ _ _ _ _ _ h
      obtain ⟨rfl, he⟩ := loopBody_invalid _ _ _ _ _ _ hb
      obtain ⟨hv, hrest⟩ := ih outs rest v hl
      refine ⟨hv, ?_⟩
      intro j fo' fs h1 h2
      cases j with
      | zero =>
        simp at h1 h2
        subst h1 h2
        exact he
      | succ j =>
        simp at h1 h2
        exact hrest j fo' fs h1 h2

/-- The first field that fails gets its declared error, the flag ends false,
and the fields after it keep the error the schema declares. -/
theorem loop_first_failure (re : Regexp) (inFields : List Field) (ins : List Field) :
    ∀ (outs res : List Field) (v : Bool) (k : Nat) (fs fi : Field) (e : String),
      loop re inFields ins outs true = Except.ok (v, res) →
      outs[k]? = some fs → ins[k]? = some fi →
      failureError re inFields fs fi = some e →
      (∀ (j : Nat) (fs1 fi1 : Field), j < k → outs[j]? = some fs1 → ins[j]? = some fi1 →
        failureError re inFields fs1 fi1 = none) →
      (∃ fo : Field, res[k]? = some fo ∧ fo.error = e) ∧ v = false ∧
        ∀ (j : Nat) (fo fs1 : Field), j ≠ k → res[j]? = some fo → outs[j]? = some fs1 →
          fo.error = fs1.error := by
  induction ins with
  | nil => intro outs res v k fs fi e _ _ h; simp at h
  | cons inField ins ih =>
    intro outs res v k fs fi e h hfs hfi he hfirst
    cases outs with
    | nil => simp at hfs
    | cons outField outs =>
      obtain ⟨v1, fo, rest, hb, hl, rfl⟩ := loop_cons _ _ _ _ _ _ _ _ _ h
      cases k with
      | zero =>
        simp at hfs hfi
        subst hfs hfi
        obtain ⟨rfl, hfo⟩ := loopBody_fail _ _ _ _ _ _ _ hb he
        obtain ⟨hv, hrest⟩ := loop_invalid _ _ _ _ _ _ hl
        refine ⟨⟨fo, by simp, hfo⟩, hv, ?_⟩
        intro j fo' fs1 hj h1 h2
        cases j with
        | zero => exact absurd rfl hj
        | succ j =>
          simp at h1 h2
          exact hrest j fo' fs1 h1 h2
      | succ k =>
        simp at hfs hfi
        have h0 := hfirst 0 outField inField (Nat.succ_pos k) (by simp) (by simp)
        obtain ⟨rfl, hfo⟩ := loopBody_pass _ _ _ _ _ _ hb h0
        obtain ⟨⟨fo1, hk1, hk2⟩, hv, hrest⟩ := ih outs rest v k fs fi e hl hfs hfi he
          (fun j fs1 fi1 hj h1 h2 =>
            hfirst (j + 1) fs1 fi1 (Nat.succ_lt_succ hj) (by simpa using h1) (by simpa using h2))
        refine ⟨⟨fo1, by simpa using hk1, hk2⟩, hv, ?_⟩
        intro j fo' fs1 hj h1 h2
        cases j with
        | zero =>
          simp at h1 h2
          subst h1 h2
          exact hfo
        | succ j =>
          simp at h1 h2
          exact hrest j fo' fs1 (by omega) h1 h2

/-- The two ways `ValidateForm` returns a form for a non-nil submission. -/
theorem ValidateForm_ok (re : Regexp) (s : ProxyServer) (inp out : Form)
    (h : ValidateForm re s (some inp) = Except.ok out) :
    ((GetForm s inp.name).fields.length ≠ inp.fields.length ∧ out = {}) ∨
    ((GetForm s inp.name).fields.length = inp.fields.length ∧
      ∃ v res, loop re inp.fields inp.fields (GetForm s inp.name).fields true =
          Except.ok (v, res) ∧
        out = { GetForm s inp.name with
          valid := v
          fields := res
          buttons := if v = true then activateButtons (GetForm s inp.name).buttons
            else (GetForm s inp.name).buttons }) := by
  unfold ValidateForm at h
  simp only at h
  split_ifs at h with hlen
  · left
    simp only [Except.ok.injEq] at h
    exact ⟨hlen, h.symm⟩
  · right
    refine ⟨not_not.1 hlen, ?_⟩
    split at h
    · simp at h
    · rename_i v res hl
      simp only [Except.ok.injEq] at h
      exact ⟨v, res, hl, h.symm⟩


theorem violates_copyValue (re : Regexp) (outField inField : Field)
    (hk : kindTag inField = kindTag outField)
    (hv : violates re (copyValue outField inField)) :
    declaredError re outField inField ≠ none := by
  obtain ⟨st, er, kind, a, r, d, hd⟩ := outField
  obtain ⟨ist, ier, ikind, ia, ir, id, ihd⟩ := inField
  rcases ikind with _ | (ti | ti | ti) <;> rcases kind with _ | (t | t | t) <;>
    simp [kindTag] at hk <;>
    simp [violates, copyValue, declaredError] at hv ⊢
  · intro h1
    split_ifs at h1
    simp_all
  · exact hv
  · intro h1
    split_ifs at h1
    simp_all

theorem loopBody_required (re : Regexp) (inFields : List Field)
    (inField outField fo : Field) (valid v : Bool)
    (h : loopBody re inFields inField valid outField = Except.ok (v, fo))
    (hkind : inField.kind ≠ none)
    (hst : fo.status = FieldStatus.FIELD_STATUS_REQUIRED)
    (hviol : violates re fo) : v = false := by
  unfold loopBody at h
  split at h
  · simp at h
  · rename_i fr hres
    have hs := checkField_status re inField fr fo valid v h
    rw [hst] at hs
    cases valid with
    | false => exact (checkField_invalid re inField fr fo v h).1
    | true =>
      rw [checkField_eq] at h
      unfold checkFieldSummary at h
      have hk : kindTag inField ≠ 0 := by
        unfold kindTag
        split <;> simp_all
      have hs1 : fr.status = FieldStatus.FIELD_STATUS_REQUIRED := hs.symm
      have happ : applicable FieldStatus.FIELD_STATUS_REQUIRED inField := Or.inl rfl
      simp only [hs1, or_true, if_true, hk, if_false, happ, not_true, or_false] at h
      split_ifs at h with hm hx
      · exact False.elim hx
      · simp only [ne_eq, not_not] at hm
        split at h
        · simp at h
          exact h.1
        · rename_i hnone
          simp at h
          obtain ⟨-, rfl⟩ := h
          exact absurd hnone (violates_copyValue re fr inField hm hviol)

theorem loop_required (re : Regexp) (inFields : List Field) (ins : List Field) :
    ∀ (outs res : List Field) (valid v : Bool) (k : Nat) (fo fi : Field),
      loop re inFields ins outs valid = Except.ok (v, res) →
      res[k]? = some fo → ins[k]? = some fi → fi.kind ≠ none →
      fo.status = FieldStatus.FIELD_STATUS_REQUIRED → violates re fo → v = false := by
  induction ins with
  | nil => intro outs res valid v k fo fi _ _ h; simp at h
  | cons inField ins ih =>
    intro outs res valid v k fo fi h hfo hfi hkind hst hviol
    cases outs with
    | nil => simp [loop] at h
    | cons outField outs =>
      obtain ⟨v1, fo0, rest, hb, hl, rfl⟩ := loop_cons _ _ _ _ _ _ _ _ _ h
      cases k with
      | zero =>
        simp at hfo hfi
        subst hfo hfi
        have hv1 := loopBody_required _ _ _ _ _ _ _ hb hkind hst hviol
        subst hv1
        exact (loop_invalid _ _ _ _ _ _ hl).1
      | succ k =>
        simp at hfo hfi
        exact ih outs rest v1 v k fo fi hl hfo hfi hkind hst hviol


/-! ## Status resolution with in-range indices -/

theorem indexField_inRange (inFields : List Field) (validator : Validator)
    (h : inRange inFields validator) :
    ∃ f, indexField inFields validator.index = Except.ok f := by
  obtain ⟨h0, h1⟩ := h
  have hlt : validator.index.toNat < inFields.length := by omega
  refine ⟨inFields[validator.index.toNat], ?_⟩
  simp [indexField, h0, List.getElem?_eq_getElem hlt]

theorem checkValidator_eq (re : Regexp) (inFields : List Field) (outField : Field)
    (status : FieldStatus) (validators : List Validator)
    (h : ∀ validator ∈ validators, inRange inFields validator) :
    checkValidator re inFields outField validators status =
      Except.ok (if validators.any (validatorMatches re inFields) = true then
        { outField with status := status } else outField) := by
  induction validators with
  | nil => simp [checkValidator]
  | cons validator validators ih =>
    obtain ⟨f, hf⟩ := indexField_inRange inFields validator (h validator (by simp))
    have ih1 := ih (fun w hw => h w (by simp [hw]))
    unfold checkValidator
    simp only [hf, List.any_cons, validatorMatches]
    by_cases hh : validatorHits re f validator = true
    · simp [hh]
    · simp only [hh, if_false, Bool.not_eq_true] at ih1 ⊢
      rw [ih1]
      simp [validatorMatches, hh]

theorem conditionBlock_eq (re : Regexp) (inFields : List Field) (outField : Field)
    (status : FieldStatus) (block : Option (List Validator))
    (h : ∀ validator ∈ validatorsOf block, inRange inFields validator) :
    conditionBlock re inFields block status outField =
      Except.ok (if blockSatisfied re inFields block = true then
        { outField with status := status } else outField) := by
  cases block with
  | none => simp [conditionBlock, blockSatisfied]
  | some validators =>
    simpa [conditionBlock, blockSatisfied] using
      checkValidator_eq re inFields outField status validators h

/-- With every validator index in range, status resolution returns the field
with the target status of the last satisfied block. -/
theorem resolveStatus_eq (re : Regexp) (inFields : List Field) (outField : Field)
    (h : blocksInRange inFields outField) :
    resolveStatus re inFields outField =
      Except.ok { outField with status := lastSatisfied re inFields outField } := by
  have ha : ∀ validator ∈ validatorsOf outField.activeIf, inRange inFields validator :=
    fun w hw => h w (by simp [hw])
  have hr : ∀ validator ∈ validatorsOf outField.requiredIf, inRange inFields validator :=
    fun w hw => h w (by simp [hw])
  have hd : ∀ validator ∈ validatorsOf outField.disabledIf, inRange inFields validator :=
    fun w hw => h w (by simp [hw])
  have hh : ∀ validator ∈ validatorsOf outField.hiddenIf, inRange inFields validator :=
    fun w hw => h w (by simp [hw])
  unfold resolveStatus lastSatisfied
  rw [conditionBlock_eq re inFields outField _ _ ha]
  by_cases b1 : blockSatisfied re inFields outField.activeIf = true <;>
    by_cases b2 : blockSatisfied re inFields outField.requiredIf = true <;>
    by_cases b3 : blockSatisfied re inFields outField.disabledIf = true <;>
    by_cases b4 : blockSatisfied re inFields outField.hiddenIf = true <;>
    simp only [b1, if_true, if_false, Bool.false_eq_true, ↓reduceIte] <;>
    (rw [conditionBlock_eq re inFields _ _ _ hr]
     simp only [b2, if_true, if_false, Bool.false_eq_true, ↓reduceIte]
     rw [conditionBlock_eq re inFields _ _ _ hd]
     simp only [b3, if_true, if_false, Bool.false_eq_true, ↓reduceIte]
     rw [conditionBlock_eq re inFields _ _ _ hh]
     simp only [b4, if_true, if_false, Bool.false_eq_true, ↓reduceIte])

theorem resolveStatus_kind (re : Regexp) (inFields : List Field) (outField fr : Field)
    (h : resolveStatus re inFields outField = Except.ok fr) : fr.kind = outField.kind := by
  rw [resolveStatus_frame re inFields outField fr h]

theorem loopBody_eq (re : Regexp) (inFields : List Field) (inField outField fr : Field)
    (valid : Bool) (h : resolveStatus re inFields outField = Except.ok fr) :
    loopBody re inFields inField valid outField = checkFieldSummary re inField valid fr := by
  unfold loopBody
  rw [h]
  exact checkField_eq re inField valid fr

theorem copyValue_none (outField inField : Field) (h : kindTag inField = 0) :
    copyValue outField inField = outField := by
  obtain ⟨st, er, kind, a, r, d, hd⟩ := outField
  obtain ⟨ist, ier, ikind, ia, ir, id, ihd⟩ := inField
  rcases ikind with _ | (ti | ti | ti) <;> rcases kind with _ | (t | t | t) <;>
    simp [kindTag] at h <;> simp [copyValue]

/-- The iteration on a field whose status is ACTIVE or REQUIRED but whose
submitted value is not checked, or is checked after an earlier failure. -/
theorem checkFieldSummary_skip (re : Regexp) (inField fr : Field) (valid : Bool)
    (hst : fr.status = FieldStatus.FIELD_STATUS_ACTIVE ∨
      fr.status = FieldStatus.FIELD_STATUS_REQUIRED)
    (hskip : valid = false ∨ ¬ applicable fr.status inField) :
    checkFieldSummary re inField valid fr =
      if kindTag inField ≠ 0 ∧ kindTag inField ≠ kindTag fr then
        Except.error Fault.nilDereference
      else Except.ok (valid, copyValue fr inField) := by
  unfold checkFieldSummary
  rw [if_pos hst]
  by_cases h0 : kindTag inField = 0
  · rw [if_pos h0, if_neg (by simp [h0]), copyValue_none fr inField h0]
  · rw [if_neg h0]
    by_cases hm : kindTag inField ≠ kindTag fr
    · rw [if_pos hm, if_pos ⟨h0, hm⟩]
    · rw [if_neg hm, if_pos hskip, if_neg (by simp [hm])]

/-- The iteration on a field that is checked: status applicable, kinds equal,
no earlier failure. -/
theorem checkFieldSummary_checked (re : Regexp) (inField fr : Field)
    (happ : applicable fr.status inField) (h0 : kindTag inField ≠ 0)
    (hk : kindTag inField = kindTag fr) :
    checkFieldSummary re inField true fr =
      match declaredError re fr inField with
      | some e => Except.ok (false, { copyValue fr inField with error := e })
      | none => Except.ok (true, copyValue fr inField) := by
  have hst : fr.status = FieldStatus.FIELD_STATUS_ACTIVE ∨
      fr.status = FieldStatus.FIELD_STATUS_REQUIRED := by
    rcases happ with h | h
    · exact Or.inr h
    · exact Or.inl h.1
  unfold checkFieldSummary
  rw [if_pos hst, if_neg h0, if_neg (by simp [hk]), if_neg (by simp [happ])]

/-! ## Lemmas on validators -/

theorem getOption_isSome (option : Int) (options : List OptionMsg) :
    (getOption option options).isSome = true ↔ ∃ o ∈ options, o.index = option := by
  induction options with
  | nil => simp [getOption]
  | cons o os ih =>
    by_cases h : o.index = option
    · simp [getOption, h]
    · simp [getOption, h, ih]

theorem validatorHits_text (re : Regexp) (f : Field) (t : TextField) (validator : Validator)
    (hf : f.kind = some (FieldKind.text t)) :
    validatorHits re f validator = checkValidatorOnTextField re t validator := by
  simp [validatorHits, Field.GetTextField, Field.GetNumericField, Field.GetSelectField, hf]

theorem validatorHits_numeric (re : Regexp) (f : Field) (n : NumericField)
    (validator : Validator) (hf : f.kind = some (FieldKind.numeric n)) :
    validatorHits re f validator = checkValidatorOnNumericField re n validator := by
  simp [validatorHits, Field.GetTextField, Field.GetNumericField, Field.GetSelectField, hf]

theorem validatorHits_select (re : Regexp) (f : Field) (s : SelectField)
    (validator : Validator) (hf : f.kind = some (FieldKind.select s)) :
    validatorHits re f validator = checkValidatorOnSelectField re s validator := by
  simp [validatorHits, Field.GetTextField, Field.GetNumericField, Field.GetSelectField, hf]

theorem validatorHits_none (re : Regexp) (f : Field) (validator : Validator)
    (hf : f.kind = none) : validatorHits re f validator = false := by
  simp [validatorHits, Field.GetTextField, Field.GetNumericField, Field.GetSelectField, hf]

/-- A regex-only validator matches nothing when the engine never reports a match
together with an error. -/
theorem validatorHits_regexOnly (re : Regexp)
    (hre : ∀ pattern s, ¬ ((re pattern s).1 = true ∧ (re pattern s).2 = true))
    (f : Field) (validator : Validator) (hv : regexOnly validator) :
    validatorHits re f validator = false := by
  obtain ⟨h1, h2, h3, h4, h5, h6⟩ := hv
  obtain ⟨st, er, kind, a, r, d, hd⟩ := f
  rcases kind with _ | (t | s | n)
  · simp [validatorHits_none]
  · rw [validatorHits_text re _ t validator rfl]
    have := hre validator.matchRegexPattern t.value
    simp only [checkValidatorOnTextField, h1, h2, h3]
    simp_all
  · rw [validatorHits_select re _ s validator rfl]
    have := hre validator.matchRegexPattern (GetValue (getOption s.index s.options))
    simp only [checkValidatorOnSelectField, h1, h4, h5, h6]
    simp_all
  · rw [validatorHits_numeric re _ n validator rfl]
    have := hre validator.matchRegexPattern (Itoa n.value)
    simp only [checkValidatorOnNumericField, h4, h5, h6]
    simp_all

theorem checkValidator_regexOnly (re : Regexp)
    (hre : ∀ pattern s, ¬ ((re pattern s).1 = true ∧ (re pattern s).2 = true))
    (inFields : List Field) (outField fr : Field) (status : FieldStatus)
    (validators : List Validator) (hv : ∀ validator ∈ validators, regexOnly validator)
    (h : checkValidator re inFields outField validators status = Except.ok fr) :
    fr = outField := by
  induction validators with
  | nil => simp [checkValidator] at h; exact h.symm
  | cons validator validators ih =>
    unfold checkValidator at h
    split at h
    · simp at h
    · rename_i f hf
      rw [validatorHits_regexOnly re hre f validator (hv validator (by simp))] at h
      simp only [Bool.false_eq_true, if_false] at h
      exact ih (fun w hw => hv w (by simp [hw])) h

/-! ## More lemmas on the loop -/

theorem loop_valid_true (re : Regexp) (inFields ins outs res : List Field) (valid : Bool)
    (h : loop re inFields ins outs valid = Except.ok (true, res)) : valid = true := by
  cases valid with
  | true => rfl
  | false => exact absurd (loop_invalid re inFields ins outs res true h).1 (by simp)

theorem loopBody_valid_true (re : Regexp) (inFields : List Field)
    (inField outField fo : Field) (valid : Bool)
    (h : loopBody re inFields inField valid outField = Except.ok (true, fo)) :
    valid = true := by
  cases valid with
  | true => rfl
  | false => exact absurd (loopBody_invalid re inFields inField outField fo true h).1 (by simp)

theorem loop_length (re : Regexp) (inFields : List Field) (ins : List Field) :
    ∀ (outs res : List Field) (valid v : Bool),
      loop re inFields ins outs valid = Except.ok (v, res) → res.length = outs.length := by
  induction ins with
  | nil =>
    intro outs res valid v h
    simp [loop] at h
    rw [h.2]
  | cons inField ins ih =>
    intro outs res valid v h
    cases outs with
    | nil => simp [loop] at h
    | cons outField outs =>
      obtain ⟨v1, fo, rest, -, hl, rfl⟩ := loop_cons _ _ _ _ _ _ _ _ _ h
      simp [ih outs rest v1 v hl]

/-- Every position visited by the loop holds what its iteration returned; when
the pass ends valid, every iteration was entered and left with `valid` true. -/
theorem loop_get (re : Regexp) (inFields : List Field) (ins : List Field) :
    ∀ (outs res : List Field) (valid v : Bool) (k : Nat) (fi fs : Field),
      loop re inFields ins outs valid = Except.ok (v, res) →
      ins[k]? = some fi → outs[k]? = some fs →
      ∃ (vk vk1 : Bool) (fo : Field),
        loopBody re inFields fi vk fs = Except.ok (vk1, fo) ∧ res[k]? = some fo ∧
          (v = true → vk = true ∧ vk1 = true) := by
  induction ins with
  | nil => intro outs res valid v k fi fs _ h; simp at h
  | cons inField ins ih =>
    intro outs res valid v k fi fs h hfi hfs
    cases outs with
    | nil => simp at hfs
    | cons outField outs =>
      obtain ⟨v1, fo, rest, hb, hl, rfl⟩ := loop_cons _ _ _ _ _ _ _ _ _ h
      cases k with
      | zero =>
        simp at hfi hfs
        subst hfi hfs
        refine ⟨valid, v1, fo, hb, by simp, ?_⟩
        intro hv
        subst hv
        have h1 := loop_valid_true re inFields ins outs rest v1 hl
        subst h1
        exact ⟨loopBody_valid_true re inFields inField outField fo valid hb, rfl⟩
      | succ k =>
        simp at hfi hfs
        obtain ⟨vk, vk1, fo1, hb1, hr1, hv1⟩ := ih outs rest v1 v k fi fs hl hfi hfs
        exact ⟨vk, vk1, fo1, hb1, by simpa using hr1, hv1⟩

/-- The flag ends false exactly when it started false or some field fails. -/
theorem loop_valid_iff (re : Regexp) (inFields : List Field) (ins : List Field) :
    ∀ (outs res : List Field) (valid v : Bool),
      loop re inFields ins outs valid = Except.ok (v, res) →
      (v = false ↔ valid = false ∨ ∃ (k : Nat) (fs fi : Field),
        outs[k]? = some fs ∧ ins[k]? = some fi ∧
          failureError re inFields fs fi ≠ none) := by
  induction ins with
  | nil =>
    intro outs res valid v h
    simp [loop] at h
    simp [h.1]
  | cons inField ins ih =>
    intro outs res valid v h
    cases outs with
    | nil => simp [loop] at h
    | cons outField outs =>
      obtain ⟨v1, fo, rest, hb, hl, rfl⟩ := loop_cons _ _ _ _ _ _ _ _ _ h
      have hi := ih outs rest v1 v hl
      cases valid with
      | false =>
        simp only [true_or, iff_true]
        have h1 := (loopBody_invalid _ _ _ _ _ _ hb).1
        subst h1
        exact (loop_invalid _ _ _ _ _ _ hl).1
      | true =>
        simp only [Bool.true_eq_false, false_or]
        cases hf : failureError re inFields outField inField with
        | some e =>
          have h1 := (loopBody_fail _ _ _ _ _ _ e hb hf).1
          subst h1
          have hv := (loop_invalid _ _ _ _ _ _ hl).1
          simp only [hv, true_iff]
          exact ⟨0, outField, inField, by simp, by simp, by simp [hf]⟩
        | none =>
          have h1 := (loopBody_pass _ _ _ _ _ _ hb hf).1
          subst h1
          rw [hi]
          simp only [Bool.true_eq_false, false_or]
          constructor
          · rintro ⟨k, fs, fi, h1, h2, h3⟩
            exact ⟨k + 1, fs, fi, by simpa using h1, by simpa using h2, h3⟩
          · rintro ⟨k, fs, fi, h1, h2, h3⟩
            cases k with
            | zero =>
              simp at h1 h2
              subst h1 h2
              exact absurd hf h3
            | succ k => exact ⟨k, fs, fi, by simpa using h1, by simpa using h2, h3⟩

/-! ## Absence of faults -/

theorem blocksInRange_length (inFields inFields1 : List Field) (outField : Field)
    (hl : inFields.length = inFields1.length) (h : blocksInRange inFields outField) :
    blocksInRange inFields1 outField := by
  intro validator hv
  have := h validator hv
  unfold inRange at *
  rw [← hl]
  exact this

theorem checkFieldSummary_total (re : Regexp) (inField fr : Field) (valid : Bool)
    (hk : kindTag inField = kindTag fr ∨ kindTag inField = 0) :
    ∃ (v : Bool) (fo : Field), checkFieldSummary re inField valid fr = Except.ok (v, fo) := by
  unfold checkFieldSummary
  split_ifs with h1 h2 h3 h4
  · exact ⟨_, _, rfl⟩
  · rcases hk with h | h
    · exact absurd h h3
    · exact absurd h h2
  · exact ⟨_, _, rfl⟩
  · cases declaredError re fr inField with
    | none => exact ⟨_, _, rfl⟩
    | some e => exact ⟨_, _, rfl⟩
  · exact ⟨_, _, rfl⟩

theorem loopBody_total (re : Regexp) (inFields : List Field) (inField outField : Field)
    (valid : Bool) (hr : blocksInRange inFields outField)
    (hk : kindTag inField = kindTag outField ∨ kindTag inField = 0) :
    ∃ (v : Bool) (fo : Field),
      loopBody re inFields inField valid outField = Except.ok (v, fo) := by
  have hres := resolveStatus_eq re inFields outField hr
  rw [loopBody_eq re inFields inField outField _ valid hres]
  apply checkFieldSummary_total
  rcases hk with h | h
  · left
    rw [h]
    rfl
  · exact Or.inr h

/-- With validator indices in range and every submitted field of the schema
field's kind or without payload, the loop returns. -/
theorem loop_total (re : Regexp) (inFields : List Field) (ins : List Field) :
    ∀ (outs : List Field) (valid : Bool),
      ins.length ≤ outs.length →
      (∀ (k : Nat) (fs fi : Field), outs[k]? = some fs → ins[k]? = some fi →
        blocksInRange inFields fs ∧ (kindTag fi = kindTag fs ∨ kindTag fi = 0)) →
      ∃ (v : Bool) (res : List Field),
        loop re inFields ins outs valid = Except.ok (v, res) := by
  induction ins with
  | nil => intro outs valid _ _; exact ⟨valid, outs, rfl⟩
  | cons inField ins ih =>
    intro outs valid hlen hp
    cases outs with
    | nil => simp at hlen
    | cons outField outs =>
      obtain ⟨h1, h2⟩ := hp 0 outField inField (by simp) (by simp)
      obtain ⟨v1, fo, hb⟩ := loopBody_total re inFields inField outField valid h1 h2
      obtain ⟨v, rest, hl⟩ := ih outs v1 (by simpa using hlen)
        (fun k fs fi hfs hfi => hp (k + 1) fs fi (by simpa using hfs) (by simpa using hfi))
      refine ⟨v, fo :: rest, ?_⟩
      unfold loop
      simp only [hb, hl]

theorem ValidateForm_of_loop (re : Regexp) (s : ProxyServer) (inp : Form) (v : Bool)
    (res : List Field)
    (hlen : (GetForm s inp.name).fields.length = inp.fields.length)
    (hl : loop re inp.fields inp.fields (GetForm s inp.name).fields true =
      Except.ok (v, res)) :
    ValidateForm re s (some inp) =
      Except.ok { GetForm s inp.name with
        valid := v
        fields := res
        buttons := if v = true then activateButtons (GetForm s inp.name).buttons
          else (GetForm s inp.name).buttons } := by
  unfold ValidateForm
  simp only [hlen, ne_eq, not_true_eq_false, if_false, hl]

/-- With the schema's validator indices in range and every submitted field of
the schema field's kind or without payload, `ValidateForm` returns a form. -/
theorem ValidateForm_total (re : Regexp) (s : ProxyServer) (inp : Form)
    (hrange : ∀ fs ∈ (GetForm s inp.name).fields,
      blocksInRange (GetForm s inp.name).fields fs)
    (hkind : ∀ (k : Nat) (fs fi : Field), (GetForm s inp.name).fields[k]? = some fs →
      inp.fields[k]? = some fi → kindTag fi = kindTag fs ∨ kindTag fi = 0) :
    ∃ out, ValidateForm re s (some inp) = Except.ok out := by
  by_cases hlen : (GetForm s inp.name).fields.length = inp.fields.length
  · obtain ⟨v, res, hl⟩ := loop_total re inp.fields inp.fields (GetForm s inp.name).fields
      true (le_of_eq hlen.symm)
      (fun k fs fi hfs hfi =>
        ⟨blocksInRange_length _ _ fs hlen (hrange fs (List.getElem?_mem hfs)),
          hkind k fs fi hfs hfi⟩)
    exact ⟨_, ValidateForm_of_loop re s inp v res hlen hl⟩
  · refine ⟨{}, ?_⟩
    unfold ValidateForm
    simp [hlen]

theorem declaredError_ne_none (re : Regexp) (outField inField : Field)
    (hk : kindTag inField = kindTag outField) :
    declaredError re outField inField ≠ none ↔ violates re (copyValue outField inField) := by
  constructor
  · intro h
    obtain ⟨st, er, kind, a, r, d, hd⟩ := outField
    obtain ⟨ist, ier, ikind, ia, ir, id, ihd⟩ := inField
    rcases ikind with _ | (ti | ti | ti) <;> rcases kind with _ | (t | t | t) <;>
      simp [kindTag] at hk <;>
      simp [violates, copyValue, declaredError] at h ⊢
    · by_contra hc
      simp only [not_or, not_lt, Bool.not_eq_false, Bool.not_eq_true] at hc
      obtain ⟨h1, h2, h3, h4⟩ := hc
      apply h
      rw [if_neg (not_lt.2 h1), if_neg (not_lt.2 h2), if_neg (by simp [h3, h4])]
    · exact h
    · by_contra hc
      simp only [not_or, not_lt] at hc
      apply h
      rw [if_neg (not_lt.2 hc.1), if_neg (not_lt.2 hc.2)]
  · exact violates_copyValue re outField inField hk

theorem failureError_ne_none (re : Regexp) (inFields : List Field)
    (outField inField : Field) :
    failureError re inFields outField inField ≠ none ↔
      ∃ fr, resolveStatus re inFields outField = Except.ok fr ∧
        applicable fr.status inField ∧ declaredError re fr inField ≠ none := by
  unfold failureError
  cases resolveStatus re inFields outField with
  | error e => simp
  | ok fr =>
    simp only [Except.ok.injEq, exists_eq_left']
    split_ifs with h
    · simp [h]
    · simp [h]

/-! ## Errors written and parts left alone -/

theorem loop_invalid_errors (re : Regexp) (inFields ins outs res : List Field) (v : Bool)
    (h : loop re inFields ins outs false = Except.ok (v, res))
    (he : ∀ fs ∈ outs, fs.error = "") :
    ∀ (j : Nat) (fo : Field), res[j]? = some fo → fo.error = "" := by
  intro j fo hj
  have hlen := loop_length re inFields ins outs res false v h
  obtain ⟨hlt, -⟩ := List.getElem?_eq_some.1 hj
  rw [hlen] at hlt
  have ho : outs[j]? = some outs[j] := List.getElem?_eq_getElem hlt
  rw [(loop_invalid re inFields ins outs res v h).2 j fo outs[j] hj ho]
  exact he _ (List.getElem?_mem ho)

/-- Over a schema that declares no error, at most one position of the result
carries an error. -/
theorem loop_one_error (re : Regexp) (inFields : List Field) (ins : List Field) :
    ∀ (outs res : List Field) (valid v : Bool),
      loop re inFields ins outs valid = Except.ok (v, res) →
      (∀ fs ∈ outs, fs.error = "") →
      ∀ (i j : Nat) (fi fj : Field), res[i]? = some fi → res[j]? = some fj →
        fi.error ≠ "" → fj.error ≠ "" → i = j := by
  induction ins with
  | nil =>
    intro outs res valid v h he i j fi fj hi _ hne _
    simp [loop] at h
    rw [← h.2] at hi
    exact absurd (he fi (List.getElem?_mem hi)) hne
  | cons inField ins ih =>
    intro outs res valid v h he i j fi fj hi hj hni hnj
    cases outs with
    | nil => simp [loop] at h
    | cons outField outs =>
      obtain ⟨v1, fo, rest, hb, hl, rfl⟩ := loop_cons _ _ _ _ _ _ _ _ _ h
      have he0 : outField.error = "" := he outField (by simp)
      have het : ∀ fs ∈ outs, fs.error = "" := fun fs hfs => he fs (by simp [hfs])
      have hrest : v1 = false → ∀ (n : Nat) (f : Field), rest[n]? = some f → f.error = "" := by
        intro hv1
        subst hv1
        exact loop_invalid_errors re inFields ins outs rest v hl het
      have hhead : fo.error ≠ "" → v1 = false := by
        intro hne
        cases valid with
        | false =>
          exact (loopBody_invalid _ _ _ _ _ _ hb).1
        | true =>
          cases hf : failureError re inFields outField inField with
          | some e => exact (loopBody_fail _ _ _ _ _ _ e hb hf).1
          | none =>
            have := (loopBody_pass _ _ _ _ _ _ hb hf).2
            rw [this, he0] at hne
            exact absurd rfl hne
      cases i with
      | zero =>
        cases j with
        | zero => rfl
        | succ j =>
          simp at hi hj
          subst hi
          exact absurd (hrest (hhead hni) j fj hj) hnj
      | succ i =>
        cases j with
        | zero =>
          simp at hi hj
          subst hj
          exact absurd (hrest (hhead hnj) i fi hi) hni
        | succ j =>
          simp at hi hj
          rw [ih outs rest v1 v hl het i j fi fj hi hj hni hnj]

theorem copyValue_skeleton (outField inField : Field) :
    skeleton (copyValue outField inField) = skeleton outField := by
  obtain ⟨st, er, kind, a, r, d, hd⟩ := outField
  obtain ⟨ist, ier, ikind, ia, ir, id, ihd⟩ := inField
  rcases ikind with _ | (ti | ti | ti) <;> rcases kind with _ | (t | t | t) <;>
    simp [copyValue, skeleton]

theorem loopBody_skeleton (re : Regexp) (inFields : List Field)
    (inField outField fo : Field) (valid v : Bool)
    (h : loopBody re inFields inField valid outField = Except.ok (v, fo)) :
    skeleton fo = skeleton outField := by
  unfold loopBody at h
  split at h
  · simp at h
  · rename_i fr hres
    have hfr : skeleton fr = skeleton outField := by
      rw [resolveStatus_frame re inFields outField fr hres]
      rfl
    rw [← hfr]
    rw [checkField_eq] at h
    unfold checkFieldSummary at h
    split_ifs at h
    all_goals first
      | (split at h <;> simp only [Except.ok.injEq, Prod.mk.injEq] at h <;>
          obtain ⟨-, rfl⟩ := h <;>
          exact copyValue_skeleton fr inField)
      | (simp only [Except.ok.injEq, Prod.mk.injEq] at h
         obtain ⟨-, rfl⟩ := h
         first
           | rfl
           | exact copyValue_skeleton fr inField)

theorem loop_skeleton (re : Regexp) (inFields : List Field) (ins : List Field) :
    ∀ (outs res : List Field) (valid v : Bool),
      loop re inFields ins outs valid = Except.ok (v, res) →
      res.map skeleton = outs.map skeleton := by
  induction ins with
  | nil =>
    intro outs res valid v h
    simp [loop] at h
    rw [h.2]
  | cons inField ins ih =>
    intro outs res valid v h
    cases outs with
    | nil => simp [loop] at h
    | cons outField outs =>
      obtain ⟨v1, fo, rest, hb, hl, rfl⟩ := loop_cons _ _ _ _ _ _ _ _ _ h
      simp only [List.map_cons]
      rw [loopBody_skeleton _ _ _ _ _ _ _ hb, ih outs rest v1 v hl]

/-! ## What is read of the submission -/

theorem validatorHits_payloadOnly (re : Regexp) (f : Field) (validator : Validator) :
    validatorHits re (payloadOnly f) validator = validatorHits re f validator := by
  obtain ⟨st, er, kind, a, r, d, hd⟩ := f
  rcases kind with _ | (t | s | n)
  · rfl
  · have e1 := validatorHits_text re
      (payloadOnly ⟨st, er, some (FieldKind.text t), a, r, d, hd⟩)
      { value := t.value } validator rfl
    have e2 := validatorHits_text re ⟨st, er, some (FieldKind.text t), a, r, d, hd⟩
      t validator rfl
    rw [e1, e2]
    rfl
  · have e1 := validatorHits_select re
      (payloadOnly ⟨st, er, some (FieldKind.select s), a, r, d, hd⟩)
      { index := s.index, options := s.options } validator rfl
    have e2 := validatorHits_select re ⟨st, er, some (FieldKind.select s), a, r, d, hd⟩
      s validator rfl
    rw [e1, e2]
    rfl
  · have e1 := validatorHits_numeric re
      (payloadOnly ⟨st, er, some (FieldKind.numeric n), a, r, d, hd⟩)
      { value := n.value } validator rfl
    have e2 := validatorHits_numeric re ⟨st, er, some (FieldKind.numeric n), a, r, d, hd⟩
      n validator rfl
    rw [e1, e2]
    rfl

theorem indexField_payloadOnly (inFields : List Field) (index : Int) :
    indexField (inFields.map payloadOnly) index =
      match indexField inFields index with
      | Except.ok f => Except.ok (payloadOnly f)
      | Except.error e => Except.error e := by
  unfold indexField
  split_ifs with h
  · rw [List.getElem?_map]
    cases inFields[index.toNat]? <;> rfl
  · rfl

theorem checkValidator_payloadOnly (re : Regexp) (inFields : List Field) (outField : Field)
    (status : FieldStatus) (validators : List Validator) :
    checkValidator re (inFields.map payloadOnly) outField validators status =
      checkValidator re inFields outField validators status := by
  induction validators with
  | nil => rfl
  | cons validator validators ih =>
    unfold checkValidator
    rw [indexField_payloadOnly]
    cases indexField inFields validator.index with
    | error e => rfl
    | ok f =>
      simp only [validatorHits_payloadOnly, ih]

theorem resolveStatus_payloadOnly (re : Regexp) (inFields : List Field) (outField : Field) :
    resolveStatus re (inFields.map payloadOnly) outField =
      resolveStatus re inFields outField := by
  have hc : ∀ block status (o : Field),
      conditionBlock re (inFields.map payloadOnly) block status o =
        conditionBlock re inFields block status o := by
    intro block status o
    cases block with
    | none => rfl
    | some validators => exact checkValidator_payloadOnly re inFields o status validators
  unfold resolveStatus
  simp only [hc]

theorem checkFieldSummary_payloadOnly (re : Regexp) (inField fr : Field) (valid : Bool) :
    checkFieldSummary re (payloadOnly inField) valid fr =
      checkFieldSummary re inField valid fr := by
  have h1 : kindTag (payloadOnly inField) = kindTag inField := by
    obtain ⟨ist, ier, ikind, ia, ir, id, ihd⟩ := inField
    rcases ikind with _ | (ti | ti | ti) <;> rfl
  have h2 : ∀ st, applicable st (payloadOnly inField) ↔ applicable st inField := by
    intro st
    obtain ⟨ist, ier, ikind, ia, ir, id, ihd⟩ := inField
    rcases ikind with _ | (ti | ti | ti) <;> rfl
  have h3 : declaredError re fr (payloadOnly inField) = declaredError re fr inField := by
    obtain ⟨st, er, kind, a, r, d, hd⟩ := fr
    obtain ⟨ist, ier, ikind, ia, ir, id, ihd⟩ := inField
    rcases ikind with _ | (ti | ti | ti) <;> rcases kind with _ | (t | t | t) <;> rfl
  have h4 : copyValue fr (payloadOnly inField) = copyValue fr inField := by
    obtain ⟨st, er, kind, a, r, d, hd⟩ := fr
    obtain ⟨ist, ier, ikind, ia, ir, id, ihd⟩ := inField
    rcases ikind with _ | (ti | ti | ti) <;> rcases kind with _ | (t | t | t) <;> rfl
  unfold checkFieldSummary
  simp only [h1, h2, h3, h4]

theorem loopBody_payloadOnly (re : Regexp) (inFields : List Field)
    (inField outField : Field) (valid : Bool) :
    loopBody re (inFields.map payloadOnly) (payloadOnly inField) valid outField =
      loopBody re inFields inField valid outField := by
  unfold loopBody
  rw [resolveStatus_payloadOnly]
  cases resolveStatus re inFields outField with
  | error e => rfl
  | ok fr =>
    simp only [checkField_eq, checkFieldSummary_payloadOnly]

theorem loop_payloadOnly (re : Regexp) (inFields : List Field) (ins : List Field) :
    ∀ (outs : List Field) (valid : Bool),
      loop re (inFields.map payloadOnly) (ins.map payloadOnly) outs valid =
        loop re inFields ins outs valid := by
  induction ins with
  | nil => intro outs valid; rfl
  | cons inField ins ih =>
    intro outs valid
    cases outs with
    | nil => rfl
    | cons outField outs =>
      simp only [List.map_cons, loop, loopBody_payloadOnly]
      cases loopBody re inFields inField valid outField with
      | error e => rfl
      | ok p =>
        obtain ⟨v1, fo⟩ := p
        simp only [ih]

/-- `ValidateForm` reads the name of the submission and the payloads of its
fields only. -/
theorem ValidateForm_payloadOnly (re : Regexp) (s : ProxyServer) (inp : Form) :
    ValidateForm re s (some { name := inp.name, fields := inp.fields.map payloadOnly }) =
      ValidateForm re s (some inp) := by
  unfold ValidateForm
  simp only [List.length_map, loop_payloadOnly]

/-! ## Validating a returned form again -/

theorem checkFieldSummary_copyValue (re : Regexp) (inField fr : Field) (valid : Bool)
    (hk : kindTag inField = kindTag fr) :
    checkFieldSummary re (copyValue fr inField) valid fr =
      checkFieldSummary re inField valid fr := by
  obtain ⟨st, er, kind, a, r, d, hd⟩ := fr
  obtain ⟨ist, ier, ikind, ia, ir, id, ihd⟩ := inField
  rcases ikind with _ | (ti | ti | ti) <;> rcases kind with _ | (t | t | t) <;>
    simp [kindTag] at hk <;>
    simp [checkFieldSummary, kindTag, applicable, nonZero, declaredError, copyValue]

theorem checkFieldSummary_idem (re : Regexp) (inField fr fo : Field)
    (h : checkFieldSummary re inField true fr = Except.ok (true, fo))
    (hk : kindTag inField ≠ 0) :
    checkFieldSummary re fo true fr = Except.ok (true, fo) := by
  by_cases hst : fr.status = FieldStatus.FIELD_STATUS_ACTIVE ∨
      fr.status = FieldStatus.FIELD_STATUS_REQUIRED
  · by_cases hm : kindTag inField = kindTag fr
    · have hfo : fo = copyValue fr inField := by
        unfold checkFieldSummary at h
        rw [if_pos hst, if_neg hk, if_neg (by simp [hm])] at h
        split_ifs at h
        all_goals first
          | (simp only [Except.ok.injEq, Prod.mk.injEq, true_and] at h
             exact h.symm)
          | (split at h
             · simp at h
             · simp only [Except.ok.injEq, Prod.mk.injEq, true_and] at h
               exact h.symm)
      rw [hfo, checkFieldSummary_copyValue re inField fr true hm, ← hfo]
      exact h
    · unfold checkFieldSummary at h
      rw [if_pos hst, if_neg hk, if_pos hm] at h
      simp at h
  · unfold checkFieldSummary at h ⊢
    rw [if_neg hst] at h ⊢
    simp only [Except.ok.injEq, Prod.mk.injEq, true_and] at h
    rw [h]

theorem loopBody_idem (re : Regexp) (inFields inFields1 : List Field)
    (inField outField fo : Field)
    (h : loopBody re inFields inField true outField = Except.ok (true, fo))
    (hk : kindTag inField ≠ 0)
    (hs : resolveStatus re inFields1 outField = resolveStatus re inFields outField) :
    loopBody re inFields1 fo true outField = Except.ok (true, fo) := by
  unfold loopBody at h
  split at h
  · simp at h
  · rename_i fr hres
    rw [loopBody_eq re inFields1 fo outField fr true (by rw [hs, hres])]
    rw [checkField_eq] at h
    exact checkFieldSummary_idem re inField fr fo h hk

/-- A pass that ends valid over submitted fields that all carry a payload is
reproduced by a pass over its own result, when the statuses resolve alike. -/
theorem loop_idem (re : Regexp) (inFields inFields1 : List Field) (ins : List Field) :
    ∀ (outs res : List Field),
      loop re inFields ins outs true = Except.ok (true, res) →
      (∀ fi ∈ ins, kindTag fi ≠ 0) →
      ins.length = outs.length →
      (∀ fs ∈ outs,
        resolveStatus re inFields1 fs = resolveStatus re inFields fs) →
      loop re inFields1 res outs true = Except.ok (true, res) := by
  induction ins with
  | nil =>
    intro outs res h _ hlen _
    cases outs with
    | nil =>
      simp [loop] at h
      subst h
      rfl
    | cons outField outs => simp at hlen
  | cons inField ins ih =>
    intro outs res h hk hlen hs
    cases outs with
    | nil => simp at hlen
    | cons outField outs =>
      obtain ⟨v1, fo, rest, hb, hl, rfl⟩ := loop_cons _ _ _ _ _ _ _ _ _ h
      have hv1 := loop_valid_true re inFields ins outs rest v1 hl
      subst hv1
      have hb1 := loopBody_idem re inFields inFields1 inField outField fo hb
        (hk inField (by simp)) (hs outField (by simp))
      have hl1 := ih outs rest hl (fun fi hfi => hk fi (by simp [hfi]))
        (by simpa using hlen) (fun fs hfs => hs fs (by simp [hfs]))
      unfold loop
      simp only [hb1, hl1]

/-! ## The claims -/

/-- C1 (as amended): for every registry and every submitted form, if the form
returned by `ValidateForm` contains a field whose resolved status is REQUIRED,
whose submitted counterpart carries a kind payload, and whose value violates its
declared constraint (text: byte length below min, above max, or not matched by
the regex; numeric: below min or above max; select: chosen index equal to no
declared option's index), then the returned form has `valid = false`. -/
theorem ValidateForm_required_violation_invalid (re : Regexp) (s : ProxyServer)
    (inp out : Form) (k : Nat) (fo fi : Field)
    (h : ValidateForm re s (some inp) = Except.ok out)
    (hfo : out.fields[k]? = some fo) (hfi : inp.fields[k]? = some fi)
    (hkind : fi.kind ≠ none)
    (hst : fo.status = FieldStatus.FIELD_STATUS_REQUIRED)
    (hviol : violates re fo) : out.valid = false := by
  rcases ValidateForm_ok re s inp out h with ⟨-, rfl⟩ | ⟨-, v, res, hl, rfl⟩
  · rfl
  · exact loop_required re inp.fields inp.fields _ res true v k fo fi hl hfo hfi hkind
      hst hviol

/-- C1, an instance: the text "ab" submitted for the REQUIRED field of min 3. -/
theorem ValidateForm_required_violation_invalid_witness :
    ValidateForm sampleRegexp sampleServer (some (submit "ab" 9 0)) =
        Except.ok rejectedShort ∧
      rejectedShort.valid = false :=
  ⟨rfl,
    ValidateForm_required_violation_invalid sampleRegexp sampleServer (submit "ab" 9 0)
      rejectedShort 0 _ _ rfl rfl rfl (by decide) rfl (by decide)⟩

/-- C1 as stated fails: a submission of the right field count whose fields carry
no payload is returned with `valid = true` although field 0 of the returned form
is REQUIRED and its (declared, empty) value is shorter than its min 3. -/
theorem ValidateForm_blank_payload_accepted :
    ValidateForm sampleRegexp sampleServer (some submitBlank) = Except.ok acceptedBlank ∧
      (GetForm sampleServer submitBlank.name).fields.length = submitBlank.fields.length ∧
      (∃ fo ∈ acceptedBlank.fields,
        fo.status = FieldStatus.FIELD_STATUS_REQUIRED ∧ violates sampleRegexp fo) ∧
      acceptedBlank.valid = true :=
  ⟨rfl, rfl, ⟨signupText, by decide, rfl, by decide⟩, rfl⟩

/-- C2 (as amended): for every registry and every submitted form with the
schema's field count for which `ValidateForm` returns a form, the first field (in field order) that has an
applicable status (REQUIRED, or ACTIVE with a non-empty / non-zero value) and
whose submitted value violates its declared constraint has, in the returned
form, error equal to the declared error string of the first check it violates;
the returned form is invalid, and every other field keeps the error declared in
the schema. -/
theorem ValidateForm_first_failure_error (re : Regexp) (s : ProxyServer)
    (inp out : Form) (k : Nat) (fs fi : Field) (e : String)
    (h : ValidateForm re s (some inp) = Except.ok out)
    (hlen : (GetForm s inp.name).fields.length = inp.fields.length)
    (hfs : (GetForm s inp.name).fields[k]? = some fs)
    (hfi : inp.fields[k]? = some fi)
    (hfail : failureError re inp.fields fs fi = some e)
    (hfirst : ∀ (j : Nat) (fs1 fi1 : Field), j < k →
      (GetForm s inp.name).fields[j]? = some fs1 → inp.fields[j]? = some fi1 →
      failureError re inp.fields fs1 fi1 = none) :
    (∃ fo : Field, out.fields[k]? = some fo ∧ fo.error = e) ∧ out.valid = false ∧
      ∀ (j : Nat) (fo fs1 : Field), j ≠ k → out.fields[j]? = some fo →
        (GetForm s inp.name).fields[j]? = some fs1 → fo.error = fs1.error := by
  rcases ValidateForm_ok re s inp out h with ⟨hne, -⟩ | ⟨-, v, res, hl, rfl⟩
  · exact absurd hlen hne
  · exact loop_first_failure re inp.fields inp.fields _ res v k fs fi e hl hfs hfi hfail
      hfirst


/-- C2, an instance: the text "abcd" makes field 1 REQUIRED, whose value 0 is
below min 1; field 0 passes, so field 1 is the first to fail. -/
theorem ValidateForm_first_failure_error_witness :
    ValidateForm sampleRegexp sampleServer (some (submit "abcd" 0 0)) =
        Except.ok rejectedAge ∧
      (∃ fo : Field, rejectedAge.fields[1]? = some fo ∧ fo.error = "too small") ∧
      rejectedAge.valid = false :=
  ⟨rfl,
    (ValidateForm_first_failure_error sampleRegexp sampleServer (submit "abcd" 0 0)
      rejectedAge 1 signupAge _ "too small" rfl rfl rfl rfl (by decide)
      (by
        intro j fs1 fi1 hj h1 h2
        obtain rfl : j = 0 := by omega
        have e1 : some signupText = some fs1 := h1
        have e2 : some ({ kind := some (FieldKind.text { value := "abcd" }) } : Field) =
            some fi1 := h2
        cases e1
        cases e2
        decide)).1,
    rfl⟩

/-- C2 as stated fails: with the text "ab" and the number 9, field 1 is ACTIVE
with a non-zero value above its max 5, yet the returned field 1 carries the
empty error of the schema and not "too large", because field 0 failed first. -/
theorem ValidateForm_later_failure_silent :
    ValidateForm sampleRegexp sampleServer (some (submit "ab" 9 0)) =
        Except.ok rejectedShort ∧
      (submit "ab" 9 0).fields[1]? =
        some { kind := some (FieldKind.numeric { value := 9 }) } ∧
      (GetForm sampleServer (submit "ab" 9 0).name).fields[1]? = some signupAge ∧
      resolveStatus sampleRegexp (submit "ab" 9 0).fields signupAge =
        Except.ok signupAge ∧
      signupAge.status = FieldStatus.FIELD_STATUS_ACTIVE ∧
      failureError sampleRegexp (submit "ab" 9 0).fields signupAge
        { kind := some (FieldKind.numeric { value := 9 }) } = some "too large" ∧
      (rejectedShort.fields[1]?).map (fun fo => fo.error) = some "" :=
  ⟨rfl, rfl, rfl, rfl, rfl, by decide, rfl⟩

/-- C3, the failing input: a submission with no fields under the unregistered
name "unknown" is answered with an empty form whose `valid` flag is true, and
`SendForm` then calls the nil handler of the zero `element`. -/
theorem ValidateForm_unknown_name_valid :
    (∀ p ∈ sampleServer, (p.2.model ()).name ≠ submitUnknown.name) ∧
      GetForm sampleServer submitUnknown.name = {} ∧
      ValidateForm sampleRegexp sampleServer (some submitUnknown) =
        Except.ok { valid := true } ∧
      (SendForm sampleRegexp sampleServer (some submitUnknown)).toOption.isNone = true :=
  ⟨by decide, rfl, rfl, rfl⟩

/-- C4, the failing input: the text "ab" fails validation (`valid = false`), and
`SendForm` nevertheless invokes the handler registered under "signup" on the
invalid form and returns the handler's answer. -/
theorem SendForm_invalid_invokes_handler :
    ValidateForm sampleRegexp sampleServer (some (submit "ab" 9 0)) =
        Except.ok rejectedShort ∧
      rejectedShort.valid = false ∧
      (SendForm sampleRegexp sampleServer (some (submit "ab" 9 0))).toOption.map
          (fun r => (r.res, r.err, r.calls)) =
        some (some { form := some rejectedShort }, none, [("signup", rejectedShort)]) :=
  ⟨rfl, rfl, rfl⟩

/-- C5: for every schema field and every submitted field sequence in which all
validator indices of the field are in range, status resolution returns the field
with the target status of the last block, in the order activeIf (ACTIVE),
requiredIf (REQUIRED), disabledIf (DISABLED), hiddenIf (HIDDEN), that is present
and has a validator matching the submitted value of the field it references; if
no block is satisfied the status is the one declared in the schema, and a block
with an empty validator list is never satisfied. -/
theorem resolveStatus_last_satisfied (re : Regexp) (inFields : List Field)
    (outField : Field) (h : blocksInRange inFields outField) :
    resolveStatus re inFields outField =
        Except.ok { outField with status := lastSatisfied re inFields outField } ∧
      (lastSatisfied re inFields outField =
        if blockSatisfied re inFields outField.hiddenIf = true then
          FieldStatus.FIELD_STATUS_HIDDEN
        else if blockSatisfied re inFields outField.disabledIf = true then
          FieldStatus.FIELD_STATUS_DISABLED
        else if blockSatisfied re inFields outField.requiredIf = true then
          FieldStatus.FIELD_STATUS_REQUIRED
        else if blockSatisfied re inFields outField.activeIf = true then
          FieldStatus.FIELD_STATUS_ACTIVE
        else outField.status) ∧
      (∀ block, blockSatisfied re inFields block = true ↔
        ∃ validators, block = some validators ∧
          ∃ validator ∈ validators, validatorMatches re inFields validator = true) ∧
      blockSatisfied re inFields (some []) = false := by
  refine ⟨resolveStatus_eq re inFields outField h, rfl, ?_, rfl⟩
  intro block
  cases block with
  | none => simp [blockSatisfied]
  | some validators => simp [blockSatisfied]

/-- C5, an instance: the text "abcd" satisfies the requiredIf block of the age
field, whose declared status ACTIVE becomes REQUIRED. -/
theorem resolveStatus_last_satisfied_witness :
    blocksInRange (submit "abcd" 0 0).fields signupAge ∧
      resolveStatus sampleRegexp (submit "abcd" 0 0).fields signupAge =
        Except.ok { signupAge with status := FieldStatus.FIELD_STATUS_REQUIRED } :=
  ⟨by decide,
    (resolveStatus_last_satisfied sampleRegexp (submit "abcd" 0 0).fields signupAge
      (by decide)).1⟩

/-- C6 (as amended): for every registered schema and every submitted form with
the schema's field count, the form returned by `ValidateForm` has as many
buttons as the schema; if it is valid every button is ACTIVE, and if it is
invalid every button keeps the status the schema declares, so that no button is
ACTIVE on an invalid form unless the schema declares it ACTIVE. -/
theorem ValidateForm_buttons (re : Regexp) (s : ProxyServer) (inp out : Form)
    (h : ValidateForm re s (some inp) = Except.ok out)
    (hlen : (GetForm s inp.name).fields.length = inp.fields.length) :
    out.buttons.length = (GetForm s inp.name).buttons.length ∧
      (out.valid = true → ∀ b ∈ out.buttons, b.status = ButtonStatus.BUTTON_ACTIVE) ∧
      (out.valid = false → out.buttons = (GetForm s inp.name).buttons) ∧
      ((∀ b ∈ (GetForm s inp.name).buttons, b.status ≠ ButtonStatus.BUTTON_ACTIVE) →
        ∀ b ∈ out.buttons, (b.status = ButtonStatus.BUTTON_ACTIVE ↔ out.valid = true)) := by
  rcases ValidateForm_ok re s inp out h with ⟨hne, -⟩ | ⟨-, v, res, -, rfl⟩
  · exact absurd hlen hne
  · cases v with
    | true =>
      simp only [if_true, activateButtons, List.length_map, List.mem_map, true_and,
        forall_exists_index, and_imp]
      refine ⟨?_, ?_, ?_⟩
      · intro _ b x _ hb
        rw [← hb]
      · intro hf
        exact absurd hf (by simp)
      · intro _ b x _ hb
        rw [← hb]
        simp
    | false =>
      simp only [Bool.false_eq_true, if_false, true_and]
      refine ⟨?_, ?_, ?_⟩
      · intro hf
        exact absurd hf (by simp)
      · intro _
        trivial
      · intro hs b hb
        simp [hs b hb]

/-- C6, an instance: a valid submission of "signup" is returned with its button
ACTIVE. -/
theorem ValidateForm_buttons_witness :
    ValidateForm sampleRegexp sampleServer (some (submit "abcd" 3 7)) =
        Except.ok acceptedFull ∧
      acceptedFull.valid = true ∧
      ∀ b ∈ acceptedFull.buttons, b.status = ButtonStatus.BUTTON_ACTIVE :=
  ⟨rfl, rfl,
    (ValidateForm_buttons sampleRegexp sampleServer (submit "abcd" 3 7) acceptedFull
      rfl rfl).2.1 rfl⟩

/-- C6 as stated fails: on a schema that declares its button ACTIVE, an invalid
submission is returned with `valid = false` and the button ACTIVE. -/
theorem ValidateForm_invalid_button_active :
    ValidateForm sampleRegexp eagerServer (some (submit "ab" 9 0)) =
        Except.ok rejectedEager ∧
      (GetForm eagerServer (submit "ab" 9 0).name).fields.length =
        (submit "ab" 9 0).fields.length ∧
      rejectedEager.valid = false ∧
      ∃ b ∈ rejectedEager.buttons, b.status = ButtonStatus.BUTTON_ACTIVE :=
  ⟨rfl, rfl, rfl, ⟨{ status := ButtonStatus.BUTTON_ACTIVE }, by decide, rfl⟩⟩

/-- C7: for every field of any kind whose resolved status is DISABLED or HIDDEN
and for every submitted value, the iteration of the loop returns the flag
`valid` it was entered with and the field as status resolution left it, whose
error is the one it had before: such a field never turns `valid` to false. -/
theorem loopBody_disabled_hidden (re : Regexp) (inFields : List Field)
    (inField outField fr : Field) (valid : Bool)
    (hres : resolveStatus re inFields outField = Except.ok fr)
    (hst : fr.status = FieldStatus.FIELD_STATUS_DISABLED ∨
      fr.status = FieldStatus.FIELD_STATUS_HIDDEN) :
    loopBody re inFields inField valid outField = Except.ok (valid, fr) ∧
      fr.error = outField.error := by
  refine ⟨?_, resolveStatus_error re inFields outField fr hres⟩
  rw [loopBody_eq re inFields inField outField fr valid hres]
  unfold checkFieldSummary
  rcases hst with h | h <;> simp [h]

/-- C7, an instance: the number 9 hides the text field, whose submitted value
"ab" is shorter than min 3; the flag stays true and no error is written. -/
theorem loopBody_disabled_hidden_witness :
    resolveStatus sampleRegexp (submit "ab" 9 0).fields signupSecret =
        Except.ok { signupSecret with status := FieldStatus.FIELD_STATUS_HIDDEN } ∧
      loopBody sampleRegexp (submit "ab" 9 0).fields
          { kind := some (FieldKind.text { value := "ab" }) } true signupSecret =
        Except.ok (true, { signupSecret with status := FieldStatus.FIELD_STATUS_HIDDEN }) :=
  ⟨rfl,
    (loopBody_disabled_hidden sampleRegexp (submit "ab" 9 0).fields
      { kind := some (FieldKind.text { value := "ab" }) } signupSecret
      { signupSecret with status := FieldStatus.FIELD_STATUS_HIDDEN } true rfl
      (Or.inr rfl)).1⟩

/-- C8: for every field whose resolved status is ACTIVE and whose submitted
value is the empty string, the number 0 or the chosen index 0, whatever the
declared min, max, regex or options are: whenever the iteration of the loop
returns, it returns the flag `valid` it was entered with and a field with the
error it had before; and it does return, with the submitted value copied, when
the submitted field is of the schema field's kind. -/
theorem loopBody_active_zero (re : Regexp) (inFields : List Field)
    (inField outField fr : Field) (valid : Bool)
    (hres : resolveStatus re inFields outField = Except.ok fr)
    (hst : fr.status = FieldStatus.FIELD_STATUS_ACTIVE)
    (hzero : ¬ nonZero inField) :
    (∀ (v : Bool) (fo : Field),
        loopBody re inFields inField valid outField = Except.ok (v, fo) →
        v = valid ∧ fo.error = outField.error) ∧
      (kindTag inField = kindTag outField →
        loopBody re inFields inField valid outField =
          Except.ok (valid, copyValue fr inField)) := by
  have happ : ¬ applicable fr.status inField := by
    unfold applicable
    simp [hst, hzero]
  have herr := resolveStatus_error re inFields outField fr hres
  have hk2 : kindTag fr = kindTag outField := by
    unfold kindTag
    rw [resolveStatus_kind re inFields outField fr hres]
  rw [loopBody_eq re inFields inField outField fr valid hres,
    checkFieldSummary_skip re inField fr valid (Or.inl hst) (Or.inr happ)]
  constructor
  · intro v fo h
    split_ifs at h
    simp only [Except.ok.injEq, Prod.mk.injEq] at h
    obtain ⟨rfl, rfl⟩ := h
    exact ⟨rfl, by rw [copyValue_error, herr]⟩
  · intro hk
    rw [if_neg (by simp [hk, hk2])]

/-- C8, an instance: the ACTIVE select field with options of index 7 and 3 and
the submitted index 0, which no option has. -/
theorem loopBody_active_zero_witness :
    loopBody sampleRegexp (submit "abc" 0 0).fields
        { kind := some (FieldKind.select { index := 0 }) } true signupPlan =
      Except.ok (true, signupPlan) :=
  (loopBody_active_zero sampleRegexp (submit "abc" 0 0).fields
    { kind := some (FieldKind.select { index := 0 }) } signupPlan signupPlan true rfl rfl
    (by decide)).2 rfl

/-- C9: for every field that is checked (resolved status REQUIRED, or ACTIVE
with a non-empty / non-zero submitted value, and `valid` still true), the
iteration of the loop returns: for a text field, minError and `valid = false` if
the byte length of the submitted value is below min, otherwise maxError and
`valid = false` if it is above max, otherwise regexError and `valid = false` if
the regex does not match it, otherwise the error and `valid` unchanged; for a
numeric field, minError if the value is below min, otherwise maxError if it is
above max, otherwise unchanged. -/
theorem loopBody_text_numeric_checked (re : Regexp) (inFields : List Field)
    (inField outField fr : Field)
    (hres : resolveStatus re inFields outField = Except.ok fr)
    (happ : applicable fr.status inField) :
    fr.error = outField.error ∧
    (∀ t ti : TextField, fr.kind = some (FieldKind.text t) →
      inField.kind = some (FieldKind.text ti) →
      loopBody re inFields inField true outField =
        if len ti.value < t.min then
          Except.ok (false,
            { fr with
              kind := some (FieldKind.text { t with value := ti.value })
              error := t.minError })
        else if len ti.value > t.max then
          Except.ok (false,
            { fr with
              kind := some (FieldKind.text { t with value := ti.value })
              error := t.maxError })
        else if (re t.regex ti.value).1 = false ∨ (re t.regex ti.value).2 = true then
          Except.ok (false,
            { fr with
              kind := some (FieldKind.text { t with value := ti.value })
              error := t.regexError })
        else
          Except.ok (true,
            { fr with kind := some (FieldKind.text { t with value := ti.value }) })) ∧
    (∀ n ni : NumericField, fr.kind = some (FieldKind.numeric n) →
      inField.kind = some (FieldKind.numeric ni) →
      loopBody re inFields inField true outField =
        if ni.value < n.min then
          Except.ok (false,
            { fr with
              kind := some (FieldKind.numeric { n with value := ni.value })
              error := n.minError })
        else if ni.value > n.max then
          Except.ok (false,
            { fr with
              kind := some (FieldKind.numeric { n with value := ni.value })
              error := n.maxError })
        else
          Except.ok (true,
            { fr with kind := some (FieldKind.numeric { n with value := ni.value }) })) := by
  refine ⟨resolveStatus_error re inFields outField fr hres, ?_, ?_⟩
  · intro t ti hk hin
    rw [loopBody_eq re inFields inField outField fr true hres,
      checkFieldSummary_checked re inField fr happ (by simp [kindTag, hin])
        (by simp [kindTag, hin, hk])]
    simp only [declaredError, copyValue, hk, hin]
    split_ifs <;> rfl
  · intro n ni hk hin
    rw [loopBody_eq re inFields inField outField fr true hres,
      checkFieldSummary_checked re inField fr happ (by simp [kindTag, hin])
        (by simp [kindTag, hin, hk])]
    simp only [declaredError, copyValue, hk, hin]
    split_ifs <;> rfl

/-- C9, two instances: the REQUIRED text field of min 3 with the value "ab", and
the numeric field of min 1, made REQUIRED by the text "abcd", with the value 0:
both get their minError and `valid = false`. -/
theorem loopBody_text_numeric_checked_witness :
    loopBody sampleRegexp (submit "ab" 0 0).fields
        { kind := some (FieldKind.text { value := "ab" }) } true signupText =
      Except.ok (false,
        { signupText with
          kind := some (FieldKind.text
            { value := "ab", min := 3, max := 10, regex := "^[a-z]+$"
              minError := "too short", maxError := "too long"
              regexError := "lower case only" })
          error := "too short" }) ∧
    loopBody sampleRegexp (submit "abcd" 0 0).fields
        { kind := some (FieldKind.numeric { value := 0 }) } true signupAge =
      Except.ok (false,
        { signupAge with
          status := FieldStatus.FIELD_STATUS_REQUIRED
          error := "too small" }) :=
  ⟨(loopBody_text_numeric_checked sampleRegexp (submit "ab" 0 0).fields
      { kind := some (FieldKind.text { value := "ab" }) } signupText signupText rfl
      (by decide)).2.1 _ _ rfl rfl,
   (loopBody_text_numeric_checked sampleRegexp (submit "abcd" 0 0).fields
      { kind := some (FieldKind.numeric { value := 0 }) } signupAge
      { signupAge with status := FieldStatus.FIELD_STATUS_REQUIRED } rfl
      (by decide)).2.2 _ _ rfl rfl⟩

/-- C10: for every select field that is checked (resolved status REQUIRED, or
ACTIVE with a non-zero chosen index, and `valid` still true), the iteration of
the loop copies the chosen index and leaves the error and `valid` unchanged when
some declared option has its index attribute equal to the chosen index;
otherwise it sets the error to the select's declared error and `valid` to
false.  The lookup is by the option's index attribute, not by position. -/
theorem loopBody_select_checked (re : Regexp) (inFields : List Field)
    (inField outField fr : Field) (t ti : SelectField)
    (hres : resolveStatus re inFields outField = Except.ok fr)
    (happ : applicable fr.status inField)
    (hk : fr.kind = some (FieldKind.select t))
    (hin : inField.kind = some (FieldKind.select ti)) :
    fr.error = outField.error ∧
    loopBody re inFields inField true outField =
      if ∃ o ∈ t.options, o.index = ti.index then
        Except.ok (true,
          { fr with kind := some (FieldKind.select { t with index := ti.index }) })
      else
        Except.ok (false,
          { fr with
            kind := some (FieldKind.select { t with index := ti.index })
            error := t.error }) := by
  refine ⟨resolveStatus_error re inFields outField fr hres, ?_⟩
  rw [loopBody_eq re inFields inField outField fr true hres,
    checkFieldSummary_checked re inField fr happ (by simp [kindTag, hin])
      (by simp [kindTag, hin, hk])]
  simp only [declaredError, copyValue, hk, hin]
  by_cases hex : ∃ o ∈ t.options, o.index = ti.index
  · rw [if_pos hex, if_neg (by simpa using hex)]
  · rw [if_neg hex, if_pos (by simpa using hex)]

/-- C10, two instances on the option list of indices 7 and 3: the chosen index 7
is accepted although it is no position of the list, the chosen index 1 is
rejected with the declared error although it is a position of the list. -/
theorem loopBody_select_checked_witness :
    loopBody sampleRegexp (submit "abc" 0 7).fields
        { kind := some (FieldKind.select { index := 7 }) } true signupPlan =
      Except.ok (true,
        { signupPlan with
          kind := some (FieldKind.select
            { index := 7
              options := [{ index := 7, value := "gold" }, { index := 3, value := "basic" }]
              error := "no such plan" }) }) ∧
    loopBody sampleRegexp (submit "abc" 0 1).fields
        { kind := some (FieldKind.select { index := 1 }) } true signupPlan =
      Except.ok (false,
        { signupPlan with
          kind := some (FieldKind.select
            { index := 1
              options := [{ index := 7, value := "gold" }, { index := 3, value := "basic" }]
              error := "no such plan" })
          error := "no such plan" }) :=
  ⟨(loopBody_select_checked sampleRegexp (submit "abc" 0 7).fields
      { kind := some (FieldKind.select { index := 7 }) } signupPlan signupPlan _ _ rfl
      (by decide) rfl rfl).2,
   (loopBody_select_checked sampleRegexp (submit "abc" 0 1).fields
      { kind := some (FieldKind.select { index := 1 }) } signupPlan signupPlan _ _ rfl
      (by decide) rfl rfl).2⟩

/-- C11: for every validator with no regex pattern set and every submitted
field, the validator matches exactly when: for a text field with value s,
textIsEqual is non-empty and s equals it, or lengthSmallerThan is non-zero and
the byte length of s is below it, or lengthGreaterThan is non-zero and the
length is above it; for a numeric field with value v, numberIsEqual is non-zero
and equals v, or numberSmallerThan is non-zero and v is below it, or
numberGreaterThan is non-zero and v is above it; for a select field with chosen
index k, textIsEqual is non-empty and some option of the submitted field has
index k, or one of the three numeric comparisons holds of k.  A field with no
payload is matched by nothing, and a validator whose predicates are all empty /
zero matches no field. -/
theorem validatorHits_iff (re : Regexp) (f : Field) (validator : Validator)
    (hre : validator.matchRegexPattern = "") :
    (validatorHits re f validator = true ↔
      match f.kind with
      | some (FieldKind.text t) =>
        (validator.textIsEqual ≠ "" ∧ t.value = validator.textIsEqual) ∨
        (validator.lengthSmallerThan ≠ 0 ∧ len t.value < validator.lengthSmallerThan) ∨
        (validator.lengthGreaterThan ≠ 0 ∧ len t.value > validator.lengthGreaterThan)
      | some (FieldKind.numeric n) =>
        (validator.numberIsEqual ≠ 0 ∧ n.value = validator.numberIsEqual) ∨
        (validator.numberSmallerThan ≠ 0 ∧ n.value < validator.numberSmallerThan) ∨
        (validator.numberGreaterThan ≠ 0 ∧ n.value > validator.numberGreaterThan)
      | some (FieldKind.select s) =>
        (validator.textIsEqual ≠ "" ∧ ∃ o ∈ s.options, o.index = s.index) ∨
        (validator.numberIsEqual ≠ 0 ∧ s.index = validator.numberIsEqual) ∨
        (validator.numberSmallerThan ≠ 0 ∧ s.index < validator.numberSmallerThan) ∨
        (validator.numberGreaterThan ≠ 0 ∧ s.index > validator.numberGreaterThan)
      | none => False) ∧
    (regexOnly validator → validatorHits re f validator = false) := by
  obtain ⟨st, er, kind, a, r, d, hd⟩ := f
  rcases kind with _ | (t | s | n)
  · simp [validatorHits_none]
  · rw [validatorHits_text re _ t validator rfl]
    simp only [checkValidatorOnTextField, hre, regexOnly]
    constructor
    · split_ifs <;> simp_all
    · rintro ⟨h1, h2, h3, -⟩
      simp [h1, h2, h3]
  · rw [validatorHits_select re _ s validator rfl]
    simp only [checkValidatorOnSelectField, hre, regexOnly, getOption_isSome]
    constructor
    · split_ifs <;> simp_all
    · rintro ⟨h1, -, -, h4, h5, h6⟩
      simp [h1, h4, h5, h6]
  · rw [validatorHits_numeric re _ n validator rfl]
    simp only [checkValidatorOnNumericField, hre, regexOnly]
    constructor
    · split_ifs <;> simp_all
    · rintro ⟨-, -, -, h4, h5, h6⟩
      simp [h4, h5, h6]

/-- C11, instances: the text "abcd" is matched by lengthGreaterThan = 3, and the
number 0 is not matched by a validator whose numberIsEqual is 0. -/
theorem validatorHits_iff_witness :
    validatorHits sampleRegexp { kind := some (FieldKind.text { value := "abcd" }) }
        { index := 0, lengthGreaterThan := 3 } = true ∧
      validatorHits sampleRegexp { kind := some (FieldKind.numeric { value := 0 }) }
        { index := 0, numberIsEqual := 0 } = false :=
  ⟨(validatorHits_iff sampleRegexp { kind := some (FieldKind.text { value := "abcd" }) }
      { index := 0, lengthGreaterThan := 3 } rfl).1.2
      (Or.inr (Or.inr ⟨by decide, by decide⟩)),
   (validatorHits_iff sampleRegexp { kind := some (FieldKind.numeric { value := 0 }) }
      { index := 0, numberIsEqual := 0 } rfl).2 (by decide)⟩

/-- C12: assuming the regex engine never reports both a match and an error for
the same call, a validator whose only set predicate is a regex pattern matches
no submitted field of any kind; consequently `checkValidator` on a list of such
validators never changes the field: whatever it returns is the field it was
given, and it does return it when the indices are in range. -/
theorem regexOnly_inert (re : Regexp)
    (hre : ∀ pattern s, ¬ ((re pattern s).1 = true ∧ (re pattern s).2 = true))
    (inFields : List Field) (outField : Field) (status : FieldStatus)
    (validators : List Validator)
    (hv : ∀ validator ∈ validators, regexOnly validator) :
    (∀ (f : Field), ∀ validator ∈ validators, validatorHits re f validator = false) ∧
    (∀ fr, checkValidator re inFields outField validators status = Except.ok fr →
      fr = outField) ∧
    ((∀ validator ∈ validators, inRange inFields validator) →
      checkValidator re inFields outField validators status = Except.ok outField) := by
  refine ⟨fun f w hw => validatorHits_regexOnly re hre f w (hv w hw),
    fun fr h => checkValidator_regexOnly re hre inFields outField fr status validators hv h,
    ?_⟩
  intro hr
  have h := checkValidator_eq re inFields outField status validators hr
  split_ifs at h
  · rw [checkValidator_regexOnly re hre inFields outField _ status validators hv h] at h
    exact h
  · exact h

/-- C12, an instance: on the sample engine a hiddenIf block whose validator only
carries the pattern of lower-case words leaves the text field REQUIRED although
the referenced text "abcd" is a lower-case word. -/
theorem regexOnly_inert_witness :
    (sampleRegexp "^[a-z]+$" "abcd").1 = true ∧
      checkValidator sampleRegexp (submit "abcd" 0 0).fields signupText
        [{ index := 0, matchRegexPattern := "^[a-z]+$" }]
        FieldStatus.FIELD_STATUS_HIDDEN = Except.ok signupText :=
  ⟨by decide,
    (regexOnly_inert sampleRegexp
      (by
        intro pattern s
        unfold sampleRegexp
        split_ifs <;> simp)
      (submit "abcd" 0 0).fields signupText FieldStatus.FIELD_STATUS_HIDDEN
      [{ index := 0, matchRegexPattern := "^[a-z]+$" }] (by decide)).2.2 (by decide)⟩

/-- C13 (as amended): for every field (text or not) whose resolved status is
DISABLED, HIDDEN or UNSPECIFIED, the field of the form returned by
`ValidateForm` is the schema field with the resolved status: its payload, in
particular its value, is the one the schema declares and the submitted value is
not copied.  (The value is copied only under the status ACTIVE or REQUIRED.) -/
theorem ValidateForm_unchecked_keeps_declared (re : Regexp) (s : ProxyServer)
    (inp out : Form) (k : Nat) (fs fi fr : Field)
    (h : ValidateForm re s (some inp) = Except.ok out)
    (hlen : (GetForm s inp.name).fields.length = inp.fields.length)
    (hfs : (GetForm s inp.name).fields[k]? = some fs)
    (hfi : inp.fields[k]? = some fi)
    (hres : resolveStatus re inp.fields fs = Except.ok fr)
    (hst : fr.status = FieldStatus.FIELD_STATUS_DISABLED ∨
      fr.status = FieldStatus.FIELD_STATUS_HIDDEN ∨
      fr.status = FieldStatus.FIELD_STATUS_UNSPECIFIED) :
    out.fields[k]? = some fr ∧ fr.kind = fs.kind := by
  refine ⟨?_, resolveStatus_kind re inp.fields fs fr hres⟩
  rcases ValidateForm_ok re s inp out h with ⟨hne, -⟩ | ⟨-, v, res, hl, rfl⟩
  · exact absurd hlen hne
  · obtain ⟨vk, vk1, fo, hb, hr, -⟩ :=
      loop_get re inp.fields inp.fields _ res true v k fi fs hl hfi hfs
    rw [loopBody_eq re inp.fields fi fs fr vk hres] at hb
    unfold checkFieldSummary at hb
    rw [if_neg (by rcases hst with h1 | h1 | h1 <;> simp [h1])] at hb
    simp only [Except.ok.injEq, Prod.mk.injEq] at hb
    rw [hb.2]
    exact hr

/-- C13, an instance: the DISABLED text field of the "locked" form is returned
as the schema declares it. -/
theorem ValidateForm_unchecked_keeps_declared_witness :
    ValidateForm sampleRegexp lockedServer (some submitLocked) =
        Except.ok acceptedLocked ∧
      acceptedLocked.fields[0]? = some lockedText :=
  ⟨rfl,
    (ValidateForm_unchecked_keeps_declared sampleRegexp lockedServer submitLocked
      acceptedLocked 0 lockedText _ lockedText rfl rfl rfl rfl rfl (Or.inl rfl)).1⟩

/-- C13 as stated fails: the text "hello" submitted for a DISABLED text field is
not copied; the returned field carries the declared value "". -/
theorem ValidateForm_disabled_value_dropped :
    ValidateForm sampleRegexp lockedServer (some submitLocked) =
        Except.ok acceptedLocked ∧
      submitLocked.fields[0]? = some { kind := some (FieldKind.text { value := "hello" }) } ∧
      resolveStatus sampleRegexp submitLocked.fields lockedText = Except.ok lockedText ∧
      lockedText.status = FieldStatus.FIELD_STATUS_DISABLED ∧
      (acceptedLocked.fields[0]?).map (fun fo => fo.kind) =
        some (some (FieldKind.text { value := "", max := 10 })) :=
  ⟨rfl, rfl, rfl, rfl, rfl⟩

/-- C15, the failing input: the schema "signup" keeps its validator indices in
range, and a submission whose field 0 carries a number where the schema declares
a REQUIRED text makes `ValidateForm` dereference the nil numeric payload of the
schema field (line 150). -/
theorem ValidateForm_kind_mismatch_faults :
    (∀ fs ∈ (GetForm sampleServer submitMismatch.name).fields,
        blocksInRange (GetForm sampleServer submitMismatch.name).fields fs) ∧
      (GetForm sampleServer submitMismatch.name).fields.length =
        submitMismatch.fields.length ∧
      ValidateForm sampleRegexp sampleServer (some submitMismatch) =
        Except.error Fault.nilDereference :=
  ⟨by decide, rfl, rfl⟩

/-- C17: if every validator of every condition block of the schema has an index
that is a position of the field sequence, and every submitted field has the kind
of the schema field at its position or carries no payload, then `ValidateForm`
returns a form (no out-of-range access, no nil dereference), as it does for a
nil submission; and the lookup `inFields[index]` fails exactly when the index
is not a position of the submitted sequence. -/
theorem ValidateForm_completes (re : Regexp) (s : ProxyServer) (inp : Form)
    (hrange : ∀ fs ∈ (GetForm s inp.name).fields,
      blocksInRange (GetForm s inp.name).fields fs)
    (hkind : ∀ (k : Nat) (fs fi : Field), (GetForm s inp.name).fields[k]? = some fs →
      inp.fields[k]? = some fi → kindTag fi = kindTag fs ∨ kindTag fi = 0) :
    (∃ out, ValidateForm re s (some inp) = Except.ok out) ∧
      ValidateForm re s none = Except.ok {} ∧
      ∀ (inFields : List Field) (index : Int),
        ((∃ e, indexField inFields index = Except.error e) ↔
          ¬ (0 ≤ index ∧ index < (inFields.length : Int))) := by
  refine ⟨ValidateForm_total re s inp hrange hkind, rfl, ?_⟩
  intro inFields index
  constructor
  · rintro ⟨e, he⟩ hr
    obtain ⟨f, hf⟩ := indexField_inRange inFields { index := index } hr
    rw [hf] at he
    simp at he
  · intro hr
    refine ⟨Fault.indexOutOfRange, ?_⟩
    unfold indexField
    split_ifs with h0
    · have hge : inFields.length ≤ index.toNat := by omega
      rw [List.getElem?_eq_none hge]
    · rfl

/-- C17, an instance: a submission of "signup" whose field 1 carries no payload
is validated without fault. -/
theorem ValidateForm_completes_witness :
    ∃ out, ValidateForm sampleRegexp sampleServer
      (some { name := "signup"
              fields := [{ kind := some (FieldKind.text { value := "abc" }) }, {},
                { kind := some (FieldKind.select { index := 3 }) }] }) = Except.ok out :=
  (ValidateForm_completes sampleRegexp sampleServer
    { name := "signup"
      fields := [{ kind := some (FieldKind.text { value := "abc" }) }, {},
        { kind := some (FieldKind.select { index := 3 }) }] }
    (by decide)
    (by
      intro k fs fi hfs hfi
      match k with
      | 0 =>
        have e1 : some signupText = some fs := hfs
        have e2 : some ({ kind := some (FieldKind.text { value := "abc" }) } : Field) =
          some fi := hfi
        cases e1; cases e2; decide
      | 1 =>
        have e1 : some signupAge = some fs := hfs
        have e2 : some ({} : Field) = some fi := hfi
        cases e1; cases e2; decide
      | 2 =>
        have e1 : some signupPlan = some fs := hfs
        have e2 : some ({ kind := some (FieldKind.select { index := 3 }) } : Field) =
          some fi := hfi
        cases e1; cases e2; decide
      | n + 3 =>
        have e1 : (none : Option Field) = some fs := hfs
        cases e1)).1

/-- C16: for every registered schema and every submitted form aligned with it
(same field count, same kind at each position, validator indices in range),
`ValidateForm` returns a form whose `valid` flag is false if and only if there
is a field whose resolved status is REQUIRED, or ACTIVE with a non-empty /
non-zero submitted value, and whose submitted value fails its kind's check
(text: length below min, above max, or regex not matched; numeric: below min or
above max; select: no option with the chosen index).  A field whose resolved
status is DISABLED, HIDDEN or UNSPECIFIED has no applicable status and never
contributes. -/
theorem ValidateForm_valid_iff (re : Regexp) (s : ProxyServer) (inp : Form)
    (hlen : (GetForm s inp.name).fields.length = inp.fields.length)
    (hrange : ∀ fs ∈ (GetForm s inp.name).fields,
      blocksInRange (GetForm s inp.name).fields fs)
    (hkind : ∀ (k : Nat) (fs fi : Field), (GetForm s inp.name).fields[k]? = some fs →
      inp.fields[k]? = some fi → kindTag fi = kindTag fs) :
    (∃ out, ValidateForm re s (some inp) = Except.ok out ∧
      (out.valid = false ↔
        ∃ (k : Nat) (fs fi fr : Field),
          (GetForm s inp.name).fields[k]? = some fs ∧ inp.fields[k]? = some fi ∧
          resolveStatus re inp.fields fs = Except.ok fr ∧
          applicable fr.status fi ∧ violates re (copyValue fr fi))) ∧
    (∀ (st : FieldStatus) (fi : Field), applicable st fi →
      st = FieldStatus.FIELD_STATUS_REQUIRED ∨ st = FieldStatus.FIELD_STATUS_ACTIVE) := by
  constructor
  · obtain ⟨out, h⟩ := ValidateForm_total re s inp hrange
      (fun k fs fi hfs hfi => Or.inl (hkind k fs fi hfs hfi))
    refine ⟨out, h, ?_⟩
    rcases ValidateForm_ok re s inp out h with ⟨hne, -⟩ | ⟨-, v, res, hl, rfl⟩
    · exact absurd hlen hne
    · simp only
      rw [loop_valid_iff re inp.fields inp.fields _ res true v hl]
      simp only [Bool.true_eq_false, false_or]
      constructor
      · rintro ⟨k, fs, fi, hfs, hfi, hf⟩
        obtain ⟨fr, hres, happ, hd⟩ := (failureError_ne_none re inp.fields fs fi).1 hf
        have hk : kindTag fi = kindTag fr := by
          rw [hkind k fs fi hfs hfi]
          unfold kindTag
          rw [resolveStatus_kind re inp.fields fs fr hres]
        exact ⟨k, fs, fi, fr, hfs, hfi, hres, happ,
          (declaredError_ne_none re fr fi hk).1 hd⟩
      · rintro ⟨k, fs, fi, fr, hfs, hfi, hres, happ, hv⟩
        have hk : kindTag fi = kindTag fr := by
          rw [hkind k fs fi hfs hfi]
          unfold kindTag
          rw [resolveStatus_kind re inp.fields fs fr hres]
        exact ⟨k, fs, fi, hfs, hfi,
          (failureError_ne_none re inp.fields fs fi).2
            ⟨fr, hres, happ, (declaredError_ne_none re fr fi hk).2 hv⟩⟩
  · intro st fi h
    rcases h with h | h
    · exact Or.inl h
    · exact Or.inr h.1

/-- C16, an instance: the submission of "abcd", 0 and no plan is aligned with
"signup"; it is returned invalid, field 1 being REQUIRED with the value 0 below
its min 1. -/
theorem ValidateForm_valid_iff_witness :
    ∃ out, ValidateForm sampleRegexp sampleServer (some (submit "abcd" 0 0)) =
        Except.ok out ∧
      (out.valid = false ↔
        ∃ (k : Nat) (fs fi fr : Field),
          (GetForm sampleServer (submit "abcd" 0 0).name).fields[k]? = some fs ∧
          (submit "abcd" 0 0).fields[k]? = some fi ∧
          resolveStatus sampleRegexp (submit "abcd" 0 0).fields fs = Except.ok fr ∧
          applicable fr.status fi ∧ violates sampleRegexp (copyValue fr fi)) :=
  (ValidateForm_valid_iff sampleRegexp sampleServer (submit "abcd" 0 0) rfl (by decide)
    (by
      intro k fs fi hfs hfi
      match k with
      | 0 =>
        have e1 : some signupText = some fs := hfs
        have e2 : some ({ kind := some (FieldKind.text { value := "abcd" }) } : Field) =
          some fi := hfi
        cases e1; cases e2; rfl
      | 1 =>
        have e1 : some signupAge = some fs := hfs
        have e2 : some ({ kind := some (FieldKind.numeric { value := 0 }) } : Field) =
          some fi := hfi
        cases e1; cases e2; rfl
      | 2 =>
        have e1 : some signupPlan = some fs := hfs
        have e2 : some ({ kind := some (FieldKind.select { index := 0 }) } : Field) =
          some fi := hfi
        cases e1; cases e2; rfl
      | n + 3 =>
        have e1 : (none : Option Field) = some fs := hfs
        cases e1)).1

/-- C19: for every registered schema whose fields all declare an empty error and
every submitted form for which `ValidateForm` returns a form, at most one field
of the returned form has a non-empty error; an iteration entered with `valid`
false leaves it false and writes no error, so the flag never goes back to true
and no error is written after the first failure. -/
theorem ValidateForm_at_most_one_error (re : Regexp) (s : ProxyServer) (inp out : Form)
    (h : ValidateForm re s (some inp) = Except.ok out)
    (hempty : ∀ fs ∈ (GetForm s inp.name).fields, fs.error = "") :
    (∀ (i j : Nat) (fi fj : Field), out.fields[i]? = some fi → out.fields[j]? = some fj →
      fi.error ≠ "" → fj.error ≠ "" → i = j) ∧
    (∀ (inField outField fo : Field) (v : Bool),
      loopBody re inp.fields inField false outField = Except.ok (v, fo) →
      v = false ∧ fo.error = outField.error) := by
  refine ⟨?_, fun inField outField fo v hb => loopBody_invalid _ _ _ _ _ _ hb⟩
  rcases ValidateForm_ok re s inp out h with ⟨-, rfl⟩ | ⟨-, v, res, hl, rfl⟩
  · intro i j fi fj hi
    simp at hi
  · exact loop_one_error re inp.fields inp.fields _ res true v hl hempty

/-- C19, an instance: of the two failing fields of the submission "ab", 9 only
field 0 carries an error in the returned form. -/
theorem ValidateForm_at_most_one_error_witness :
    ValidateForm sampleRegexp sampleServer (some (submit "ab" 9 0)) =
        Except.ok rejectedShort ∧
      ∀ (i j : Nat) (fi fj : Field), rejectedShort.fields[i]? = some fi →
        rejectedShort.fields[j]? = some fj → fi.error ≠ "" → fj.error ≠ "" → i = j :=
  ⟨rfl,
    (ValidateForm_at_most_one_error sampleRegexp sampleServer (submit "ab" 9 0)
      rejectedShort rfl (by decide)).1⟩

/-- C20: for every registered schema and every submitted form with the schema's
field count for which `ValidateForm` returns a form, the returned form has the
schema's name, as many fields and as many buttons as the schema, and each field
agrees with the schema field at its position in everything but its status, its
error and its value / chosen index: same kind, min, max, regex, option list,
declared error strings and condition blocks. -/
theorem ValidateForm_frame (re : Regexp) (s : ProxyServer) (inp out : Form)
    (h : ValidateForm re s (some inp) = Except.ok out)
    (hlen : (GetForm s inp.name).fields.length = inp.fields.length) :
    out.name = (GetForm s inp.name).name ∧
      out.fields.length = (GetForm s inp.name).fields.length ∧
      out.buttons.length = (GetForm s inp.name).buttons.length ∧
      out.fields.map skeleton = (GetForm s inp.name).fields.map skeleton := by
  rcases ValidateForm_ok re s inp out h with ⟨hne, -⟩ | ⟨-, v, res, hl, rfl⟩
  · exact absurd hlen hne
  · refine ⟨rfl, loop_length re inp.fields inp.fields _ res true v hl, ?_,
      loop_skeleton re inp.fields inp.fields _ res true v hl⟩
    simp only
    split_ifs
    · simp [activateButtons]
    · rfl

/-- C20, an instance: the form returned for "abcd", 3 and plan 7 differs from
the schema "signup" in values, statuses and the button only. -/
theorem ValidateForm_frame_witness :
    ValidateForm sampleRegexp sampleServer (some (submit "abcd" 3 7)) =
        Except.ok acceptedFull ∧
      acceptedFull.name = signup.name ∧
      acceptedFull.fields.map skeleton = signup.fields.map skeleton :=
  ⟨rfl,
    (ValidateForm_frame sampleRegexp sampleServer (submit "abcd" 3 7) acceptedFull
      rfl rfl).1,
    (ValidateForm_frame sampleRegexp sampleServer (submit "abcd" 3 7) acceptedFull
      rfl rfl).2.2.2⟩

/-- C18 (as amended): the outcome of `ValidateForm` depends only on the registry
and on the submitted form's name, field count, and each submitted field's kind
and value / chosen index, and for a select field also the option list it
carries: two submissions that agree on these but differ in the status, error,
bounds, regex, error strings or condition blocks they carry get the same
outcome. -/
theorem ValidateForm_reads_payload (re : Regexp) (s : ProxyServer) (inp1 inp2 : Form)
    (hname : inp1.name = inp2.name)
    (hfields : inp1.fields.map payloadOnly = inp2.fields.map payloadOnly) :
    ValidateForm re s (some inp1) = ValidateForm re s (some inp2) := by
  rw [← ValidateForm_payloadOnly re s inp1, ← ValidateForm_payloadOnly re s inp2,
    hname, hfields]

/-- C18, an instance: a submission carrying its own statuses, bounds, error
strings and condition block is validated as the plain one. -/
theorem ValidateForm_reads_payload_witness :
    ValidateForm sampleRegexp sampleServer (some submitNoisy) =
      ValidateForm sampleRegexp sampleServer (some (submit "ab" 9 0)) :=
  ValidateForm_reads_payload sampleRegexp sampleServer submitNoisy (submit "ab" 9 0)
    rfl rfl

/-- C18 as stated fails: two submissions of "plans" with the same name, field
count, kinds, chosen index 7 and text "hi", which differ only in the option list
the select field carries, are returned differently: the textIsEqual validator
of the note looks the chosen index up in the submitted option list. -/
theorem ValidateForm_reads_submitted_options :
    submitPlan [{ index := 7 }] =
        { name := "plans"
          fields :=
            [{ kind := some (FieldKind.select { index := 7, options := [{ index := 7 }] }) },
             { kind := some (FieldKind.text { value := "hi" }) }] } ∧
      submitPlan [] =
        { name := "plans"
          fields :=
            [{ kind := some (FieldKind.select { index := 7, options := [] }) },
             { kind := some (FieldKind.text { value := "hi" }) }] } ∧
      ValidateForm sampleRegexp plansServer (some (submitPlan [{ index := 7 }])) =
        Except.ok hiddenNote ∧
      ValidateForm sampleRegexp plansServer (some (submitPlan [])) = Except.ok shownNote ∧
      hiddenNote ≠ shownNote :=
  ⟨rfl, rfl, rfl, rfl, by decide⟩

/-- C14 (as amended): for every registry, if `ValidateForm` returns for the
submission `inp` a form `out` with `valid = true`, the name of `inp` is the
name of the schema looked up for it, every field of `inp` carries a payload, and
the condition blocks of the schema resolve every field to the same status on the
fields of `out` as on the fields of `inp`, then `ValidateForm` applied to `out`
returns `out` itself: `valid = true` and every field with the same value /
chosen index. -/
theorem ValidateForm_idempotent (re : Regexp) (s : ProxyServer) (inp out : Form)
    (h : ValidateForm re s (some inp) = Except.ok out)
    (hvalid : out.valid = true)
    (hname : (GetForm s inp.name).name = inp.name)
    (hpayload : ∀ fi ∈ inp.fields, fi.kind ≠ none)
    (hstable : ∀ fs ∈ (GetForm s inp.name).fields,
      resolveStatus re out.fields fs = resolveStatus re inp.fields fs) :
    ValidateForm re s (some out) = Except.ok out := by
  rcases ValidateForm_ok re s inp out h with ⟨-, rfl⟩ | ⟨hlen, v, res, hl, rfl⟩
  · simp at hvalid
  · simp only at hvalid hstable
    subst hvalid
    have hk : ∀ fi ∈ inp.fields, kindTag fi ≠ 0 := by
      intro fi hfi
      have := hpayload fi hfi
      unfold kindTag
      split <;> simp_all
    have hl1 := loop_idem re inp.fields res inp.fields _ res hl hk hlen.symm hstable
    have hlen1 : (GetForm s inp.name).fields.length = res.length :=
      (loop_length re inp.fields inp.fields _ res true true hl).symm
    have h2 := ValidateForm_of_loop re s
      { GetForm s inp.name with
        valid := true
        fields := res
        buttons := if true = true then activateButtons (GetForm s inp.name).buttons
          else (GetForm s inp.name).buttons } true res
      (by simp only [hname]; exact hlen1)
      (by simp only [hname]; exact hl1)
    simp only [hname] at h2 ⊢
    exact h2

/-- C14, an instance: the form returned for "abcd", 3 and plan 7 is returned
unchanged when it is validated again. -/
theorem ValidateForm_idempotent_witness :
    ValidateForm sampleRegexp sampleServer (some (submit "abcd" 3 7)) =
        Except.ok acceptedFull ∧
      ValidateForm sampleRegexp sampleServer (some acceptedFull) = Except.ok acceptedFull :=
  ⟨rfl,
    ValidateForm_idempotent sampleRegexp sampleServer (submit "abcd" 3 7) acceptedFull
      rfl rfl rfl (by decide)
      (by
        intro fs hfs
        have hmem : fs ∈ [signupText, signupAge, signupPlan] := hfs
        simp only [List.mem_cons, List.mem_singleton, List.not_mem_nil, or_false] at hmem
        rcases hmem with rfl | rfl | rfl <;> rfl)⟩

/-- C14 as stated fails, in three ways.  The valid form returned for the text
"hello" and the number 0 on "locked" carries the declared text "" of the
DISABLED field, which on a second pass makes the number REQUIRED and the form
invalid.  The valid form returned for a submission without payloads carries the
declared values, which the second pass checks and rejects.  The valid empty form
returned for an unregistered name is looked up under the empty name. -/
theorem ValidateForm_revalidation_rejects :
    (ValidateForm sampleRegexp lockedServer (some submitLocked) =
        Except.ok acceptedLocked ∧
      acceptedLocked.valid = true ∧
      ValidateForm sampleRegexp lockedServer (some acceptedLocked) =
        Except.ok rejectedLocked ∧
      rejectedLocked.valid = false) ∧
    (ValidateForm sampleRegexp sampleServer (some submitBlank) = Except.ok acceptedBlank ∧
      acceptedBlank.valid = true ∧
      (ValidateForm sampleRegexp sampleServer (some acceptedBlank)).toOption.map
        (fun o => o.valid) = some false) ∧
    (ValidateForm sampleRegexp namelessServer (some submitUnknown) =
        Except.ok { valid := true } ∧
      ValidateForm sampleRegexp namelessServer (some { valid := true }) = Except.ok {}) :=
  ⟨⟨rfl, rfl, rfl, rfl⟩, ⟨rfl, rfl, rfl⟩, ⟨rfl, rfl⟩⟩

end Api
